import Mathlib

/-!
# Marquee slider: measurement, population and frame loop

A shallow embedding of `src/index.js` (the `Utility` class and the
`marquee-component` custom element) together with proofs about it.

Modelling conventions

* JavaScript numbers are exact rationals (`ℚ`).  Every DOM measurement read by
  the program (`offsetLeft`, `offsetTop`, `clientWidth`, `clientHeight`,
  `offsetWidth`, `offsetHeight`, `innerWidth`, `innerHeight`) is an integer, so
  the sums and differences the program takes of them are exact; `NaN` (a
  non-numeric `speed` attribute) is outside the model.
* `speed` is a free attribute and `point` accumulates it in IEEE doubles.  The
  exact sum of the model is the sum of the source whenever it is itself a double
  (`ExactDouble`); with a speed such as 0.1 the source rounds, so statements
  about `point` over several frames are made for speeds whose multiples are
  exact doubles.  The statements about a single frame use the advanced point
  only through the recycle test and the partition, whatever its value.
* `mode` and `dir` range over the two values each that the JSDoc of the source
  gives them (`'horizontal' | 'vertical'`, `'ltr' | 'rtl'`).
* The browser's layout is a parameter (`Host.layout`): it gives the box of the
  `i`-th child of the wrapper from the markup of all its children.  CSS
  transforms do not change `offsetLeft`/`offsetTop`, so the boxes depend on the
  child sequence only.
* A DOM node has an identity (`Node.id`) and a markup (`Node.markup`).
  Assigning `innerHTML` replaces all children by freshly parsed nodes.
* One call of `#animate` is one frame; the `requestAnimationFrame` recursion is
  the iteration `frames`.
* The `while` loop of `#populateElements` takes a bound on the number of
  iterations; `none` means the bound was reached with the loop still running.
-/

namespace Marquee

/-! ## Data model -/

/-- The `MODE` constant of the source. -/
inductive Mode where
  | horizontal
  | vertical
  deriving DecidableEq, Repr

/-- The `DIRECTION` constant of the source. -/
inductive Direction where
  | ltr
  | rtl
  deriving DecidableEq, Repr

/-- The globals `innerWidth` and `innerHeight`. -/
structure Window where
  innerWidth : ℚ
  innerHeight : ℚ

/-- A child node of the wrapper: its identity and its markup. -/
structure Node where
  id : Nat
  markup : Nat
  deriving DecidableEq, Repr

/-- The measurements of one laid-out box. -/
structure Box where
  offsetTop : ℚ
  offsetLeft : ℚ
  clientWidth : ℚ
  clientHeight : ℚ

/-- An `HTMLElement` as the program reads it: the node and its measurements. -/
structure HTMLElement where
  node : Node
  offsetTop : ℚ
  offsetLeft : ℚ
  clientWidth : ℚ
  clientHeight : ℚ
  deriving DecidableEq

/-- The record returned by `getElementOffset`. -/
structure Offset where
  top : ℚ
  left : ℚ
  right : ℚ
  bottom : ℚ
  deriving DecidableEq

/-- An argument of `getElementOffset`: an `HTMLElement` or any other value. -/
inductive Value where
  | element (el : HTMLElement)
  | other

/-- The box of the `marquee-component` itself, read by `getScopeSize`. -/
structure Scope where
  offsetWidth : ℚ
  offsetHeight : ℚ

/-- The rendering surface: window metrics, the component's own box, and the
layout of the wrapper's children (`layout markups i` is the box of child `i`). -/
structure Host where
  window : Window
  scope : Scope
  layout : List Nat → Nat → Box

/-- The function written into the transform: `translateX` or `translateY`. -/
inductive Axis where
  | X
  | Y
  deriving DecidableEq, Repr

/-- A value assigned to `wrapper.style.transform`: the text
`translate<axis>(<->?<px>px)`, where `minus` says whether the template writes a
literal minus sign in front of the interpolated number `px = Math.ceil(point)`. -/
structure Translate where
  axis : Axis
  minus : Bool
  px : Int
  deriving DecidableEq, Repr

/-- The signed distance denoted by the written text: `-px` behind a literal
minus sign, `px` without one; `--n` is not a CSS length, so a literal minus in
front of a negative number denotes nothing. -/
def Translate.distance (t : Translate) : Option Int :=
  if t.minus then (if 0 ≤ t.px then some (-t.px) else none) else some t.px

/-- The fields of the `marquee-component` element, the wrapper's child list and
the sequence of values assigned to `wrapper.style.transform` (oldest first). -/
structure MarqueeComponent where
  speed : ℚ
  mode : Mode
  direction : Direction
  children : List Node
  transforms : List Translate
  scopeSize : ℚ
  wrapperSize : ℚ
  moveTo : ℚ
  point : ℚ

/-! ## The DOM operations used by the program -/

/-- Pair the nodes of a child list with their boxes, from index `i` on. -/
def measureFrom (boxAt : Nat → Box) : Nat → List Node → List HTMLElement
  | _, [] => []
  | i, n :: ns =>
    { node := n
      offsetTop := (boxAt i).offsetTop
      offsetLeft := (boxAt i).offsetLeft
      clientWidth := (boxAt i).clientWidth
      clientHeight := (boxAt i).clientHeight } :: measureFrom boxAt (i + 1) ns

/-- `Array.from( wrapper.children )`: the children with their current boxes. -/
def Host.children (h : Host) (cs : List Node) : List HTMLElement :=
  measureFrom (h.layout (cs.map Node.markup)) 0 cs

/-- The getter `wrapper.innerHTML`: the markup of the children in order. -/
def innerHTML (cs : List Node) : List Nat :=
  cs.map Node.markup

/-- Fresh nodes for a markup sequence, numbered from `i`. -/
def parseFrom : Nat → List Nat → List Node
  | _, [] => []
  | i, m :: ms => { id := i, markup := m } :: parseFrom (i + 1) ms

/-- The setter `wrapper.innerHTML = ...`: all children are replaced by new nodes. -/
def setInnerHTML (ms : List Nat) : List Node :=
  parseFrom 0 ms

/-- `wrapper.appendChild( el )`: a node that is already a child is taken out of
its place and put at the end. -/
def appendChild (cs : List Node) (el : Node) : List Node :=
  cs.filter (fun c => c.id != el.id) ++ [el]

/-! ## Class `Utility` -/

/-- The record built in the `instanceof HTMLElement` branch of `getElementOffset`. -/
def elementOffset (w : Window) (element : HTMLElement) : Offset :=
  { top := element.offsetTop
    left := element.offsetLeft
    right := w.innerWidth - element.offsetLeft - element.clientWidth
    bottom := w.innerHeight - element.offsetTop - element.clientHeight }

/-- `Utility.getElementOffset`: the offset record of an `HTMLElement`; for any
other value an error is logged and nothing is returned (`undefined`). -/
def getElementOffset (w : Window) : Value → Option Offset
  | .element el => some (elementOffset w el)
  | .other => none

/-- One call of the reducer of `getElementsSize`: the accumulator `prev` and the
variable `size`. -/
def sizeStep (w : Window) (mode : Mode) (dir : Direction)
    (acc : Option HTMLElement × ℚ) (curr : HTMLElement) : Option HTMLElement × ℚ :=
  match acc.1 with
  | none =>
    (some curr,
      match mode with
      | .horizontal => curr.clientWidth
      | .vertical => curr.clientHeight)
  | some prev =>
    let size := acc.2
    let prevOffset := elementOffset w prev
    let currOffset := elementOffset w curr
    (some curr,
      match mode, dir with
      | .horizontal, .ltr =>
        curr.clientWidth + size + (currOffset.left - prevOffset.left - prev.clientWidth)
      | .horizontal, .rtl =>
        curr.clientWidth + size + (currOffset.right - prevOffset.right - prev.clientWidth)
      | .vertical, .ltr =>
        curr.clientHeight + size + (currOffset.top - prevOffset.top - prev.clientHeight)
      | .vertical, .rtl =>
        curr.clientHeight + size + (currOffset.bottom - prevOffset.bottom - prev.clientHeight))

/-- `Utility.getElementsSize`. -/
def getElementsSize (w : Window) (elements : List HTMLElement) (mode : Mode)
    (dir : Direction) : ℚ :=
  (elements.foldl (sizeStep w mode dir) (none, 0)).2

/-- `Utility.getScopeSize`. -/
def getScopeSize (scope : Scope) (mode : Mode) : ℚ :=
  if mode = .horizontal then scope.offsetWidth else scope.offsetHeight

/-- The result record of `getVisibleElements`. -/
structure Partition where
  visibleElements : List HTMLElement
  inVisibleElements : List HTMLElement

/-- The inner function `updateElements` of `getVisibleElements`. -/
def updateElements (acc : Partition) (isInvisible : Bool) (element : HTMLElement) :
    Partition :=
  if isInvisible then
    { acc with inVisibleElements := acc.inVisibleElements ++ [element] }
  else
    { acc with visibleElements := acc.visibleElements ++ [element] }

/-- The test of the `switch` in `getVisibleElements` for one element. -/
def isInvisible (w : Window) (mode : Mode) (dir : Direction) (point : ℚ)
    (el : HTMLElement) : Bool :=
  let offset := elementOffset w el
  match mode, dir with
  | .horizontal, .ltr => decide (offset.left + el.clientWidth ≤ point)
  | .horizontal, .rtl => decide (offset.right + el.clientWidth ≤ point)
  | .vertical, .ltr => decide (offset.top + el.clientHeight ≤ point)
  | .vertical, .rtl => decide (offset.bottom + el.clientHeight ≤ 0)

/-- `Utility.getVisibleElements`. -/
def getVisibleElements (w : Window) (elements : List HTMLElement) (mode : Mode)
    (dir : Direction) (point : ℚ) : Partition :=
  elements.foldl
    (fun acc el => updateElements acc (isInvisible w mode dir point el) el)
    { visibleElements := [], inVisibleElements := [] }

/-- The extent of an element along the axis of the mode: the quantity that the
`switch` on `mode` reads in `getElementsSize`. -/
def extent (mode : Mode) (el : HTMLElement) : ℚ :=
  match mode with
  | .horizontal => el.clientWidth
  | .vertical => el.clientHeight

/-- The offset component that `getElementsSize` and `getVisibleElements` read
for a mode and direction: `left`, `right`, `top` or `bottom`. -/
def edge (w : Window) (mode : Mode) (dir : Direction) (el : HTMLElement) : ℚ :=
  match mode, dir with
  | .horizontal, .ltr => (elementOffset w el).left
  | .horizontal, .rtl => (elementOffset w el).right
  | .vertical, .ltr => (elementOffset w el).top
  | .vertical, .rtl => (elementOffset w el).bottom

/-! ## The `marquee-component` element -/

/-- The component after `connectedCallback` has read its attributes. -/
def connected (speed : ℚ) (mode : Mode) (direction : Direction) (children : List Node) :
    MarqueeComponent :=
  { speed := speed
    mode := mode
    direction := direction
    children := children
    transforms := []
    scopeSize := 0
    wrapperSize := 0
    moveTo := 0
    point := 0 }

/-- The body of the `while` loop of `#populateElements`, at most `fuel` times. -/
def populateLoop (h : Host) (wrapperInnerHTMLUnit : List Nat) :
    Nat → MarqueeComponent → Option MarqueeComponent
  | fuel, st =>
    if st.wrapperSize < st.scopeSize + st.scopeSize / 3 then
      match fuel with
      | 0 => none
      | fuel + 1 =>
        let cs := setInnerHTML (innerHTML st.children ++ wrapperInnerHTMLUnit)
        populateLoop h wrapperInnerHTMLUnit fuel
          { st with
            children := cs
            wrapperSize := getElementsSize h.window (h.children cs) st.mode st.direction }
    else
      some st

/-- `#populateElements`. -/
def populateElements (h : Host) (fuel : Nat) (st : MarqueeComponent) :
    Option MarqueeComponent :=
  populateLoop h (innerHTML st.children) fuel st

/-- `#moveWrapper`. -/
def moveWrapper (st : MarqueeComponent) (point : ℚ) : MarqueeComponent :=
  { st with
    transforms := st.transforms ++
      [match st.mode, st.direction with
       | .horizontal, .ltr => { axis := .X, minus := true, px := ⌈point⌉ }
       | .horizontal, .rtl => { axis := .X, minus := false, px := ⌈point⌉ }
       | .vertical, .ltr => { axis := .Y, minus := true, px := ⌈point⌉ }
       | .vertical, .rtl => { axis := .Y, minus := false, px := ⌈point⌉ }] }

/-- `#shouldAppendElements`. -/
def shouldAppendElements (st : MarqueeComponent) : Bool :=
  if st.mode = .vertical ∧ st.direction = .rtl then
    decide (st.moveTo + st.point ≥ 0)
  else
    decide (st.point ≥ st.moveTo)

/-- The first two statements of `#animate`: advance `point` and move the wrapper.
The sum is exact; it is the double sum of the source whenever that sum is an exact
double. -/
def advance (st : MarqueeComponent) : MarqueeComponent :=
  let st := { st with point := st.point + st.speed }
  if st.mode = .vertical ∧ st.direction = .rtl then
    moveWrapper st (st.moveTo + st.point)
  else
    moveWrapper st st.point

/-- The recycle branch of `#animate`. -/
def recycle (h : Host) (st : MarqueeComponent) : MarqueeComponent :=
  let parts :=
    getVisibleElements h.window (h.children st.children) st.mode st.direction st.point
  let visibleSize := getElementsSize h.window parts.visibleElements st.mode st.direction
  let st :=
    { st with
      children := parts.inVisibleElements.foldl
        (fun cs (el : HTMLElement) => appendChild cs el.node) st.children }
  let st := { st with point := visibleSize - st.scopeSize }
  if st.mode = .vertical ∧ st.direction = .rtl then
    moveWrapper st (st.moveTo + st.point)
  else
    moveWrapper st st.point

/-- `#animate`: one frame. -/
def animate (h : Host) (st : MarqueeComponent) : MarqueeComponent :=
  let st := advance st
  if shouldAppendElements st then recycle h st else st

/-- The frame loop: `n` further calls of `#animate`. -/
def frames (h : Host) : Nat → MarqueeComponent → MarqueeComponent
  | 0, st => st
  | n + 1, st => animate h (frames h n st)

/-- The statements of `#init` before its call of `#animate`. -/
def initPosition (st : MarqueeComponent) : MarqueeComponent :=
  let st := { st with moveTo := st.wrapperSize - st.scopeSize }
  if st.mode = .vertical ∧ st.direction = .rtl then
    let st := { st with moveTo := st.scopeSize - st.wrapperSize }
    moveWrapper st st.moveTo
  else
    st

/-- `#init`: fix `moveTo`, pre-position, and run the first frame. -/
def init (h : Host) (st : MarqueeComponent) : MarqueeComponent :=
  animate h (initPosition st)

/-- The listener of the mount event: measure, populate, start. -/
def onMount (h : Host) (fuel : Nat) (st : MarqueeComponent) : Option MarqueeComponent :=
  let st := { st with scopeSize := getScopeSize h.scope st.mode }
  let st :=
    { st with
      wrapperSize := getElementsSize h.window (h.children st.children) st.mode st.direction }
  (populateElements h fuel st).map (init h)

/-- The constant `visibleSize` of the recycle branch of `#animate` entered in
state `st` (the state after the advance of the frame). -/
def visibleSize (h : Host) (st : MarqueeComponent) : ℚ :=
  getElementsSize h.window
    (getVisibleElements h.window (h.children st.children) st.mode st.direction
      st.point).visibleElements st.mode st.direction

/-- Whether recycling is due in the `k`-th frame (`k ≥ 1`) of the run from `st`:
the value of `#shouldAppendElements()` in the `k`-th call of `#animate`. -/
def dueInFrame (h : Host) (st : MarqueeComponent) (k : Nat) : Bool :=
  shouldAppendElements (advance (frames h (k - 1) st))

/-- The elements are laid out without gaps along the axis and direction: the edge offset
of each element is that of the previous one plus the previous extent. -/
def GapFree (w : Window) (mode : Mode) (dir : Direction) (els : List HTMLElement) : Prop :=
  List.Chain' (fun prev curr =>
    edge w mode dir curr = edge w mode dir prev + extent mode prev) els

/-- One execution of the body of the `while` loop of `#populateElements`. -/
def populateStep (h : Host) (wrapperInnerHTMLUnit : List Nat) (st : MarqueeComponent) :
    MarqueeComponent :=
  let cs := setInnerHTML (innerHTML st.children ++ wrapperInnerHTMLUnit)
  { st with
    children := cs
    wrapperSize := getElementsSize h.window (h.children cs) st.mode st.direction }

/-- The state after `k` executions of the body of the `while` loop of
`#populateElements`, whatever the loop condition says. -/
def populateIter (h : Host) (wrapperInnerHTMLUnit : List Nat) :
    Nat → MarqueeComponent → MarqueeComponent
  | 0, st => st
  | k + 1, st => populateIter h wrapperInnerHTMLUnit k (populateStep h wrapperInnerHTMLUnit st)

/-- The condition of the `while` loop of `#populateElements`. -/
abbrev populateCond (st : MarqueeComponent) : Prop :=
  st.wrapperSize < st.scopeSize + st.scopeSize / 3

/-- A non-negative number that an IEEE double holds exactly: `c / 2 ^ j` with
`c ≤ 2 ^ 53` and `j ≤ 1074`.  When the sum of two doubles is such a number the double
addition of the source returns it unrounded. -/
def ExactDouble (q : ℚ) : Prop :=
  ∃ c j : ℕ, c ≤ 2 ^ 53 ∧ j ≤ 1074 ∧ q = c / 2 ^ j

/-! ## Concrete rendering surfaces and components

Used to run the program on explicit inputs. -/

/-- A gap-free row starting at offset 0: the child of markup `m` is `m` wide and
50 high, and each child starts where the previous one ends. -/
def rowLayout (ms : List Nat) (i : Nat) : Box :=
  { offsetTop := 0
    offsetLeft := ((ms.take i).sum : Nat)
    clientWidth := (ms.getD i 0 : Nat)
    clientHeight := 50 }

/-- A 1000 x 800 window showing a component of the given width whose wrapper is
laid out by `rowLayout`. -/
def rowHost (scopeWidth : ℚ) : Host :=
  { window := { innerWidth := 1000, innerHeight := 800 }
    scope := { offsetWidth := scopeWidth, offsetHeight := 50 }
    layout := rowLayout }

/-- A horizontal left-to-right component of width 300 with three slides of
width 100, as measured by the mount listener before `#populateElements`. -/
def threeSlides : MarqueeComponent :=
  { speed := 5
    mode := .horizontal
    direction := .ltr
    children := setInnerHTML [100, 100, 100]
    transforms := []
    scopeSize := 300
    wrapperSize := 300
    moveTo := 0
    point := 0 }

/-- The component `threeSlides` after one duplication of its content. -/
def sixSlides : MarqueeComponent :=
  { threeSlides with
    children := setInnerHTML [100, 100, 100, 100, 100, 100]
    wrapperSize := 600 }

/-- The component `sixSlides` one frame before the end of its first lap. -/
def lapDone : MarqueeComponent :=
  { sixSlides with
    moveTo := 300
    point := 295 }

/-- Six slides of width 100 in a component of width 302: the component
`connected 5 .horizontal .ltr (setInnerHTML [100, 100, 100])` after the mount
listener has measured and populated it on `rowHost 302`. -/
def sixSlidesWide : MarqueeComponent :=
  { speed := 5
    mode := .horizontal
    direction := .ltr
    children := setInnerHTML [100, 100, 100, 100, 100, 100]
    transforms := []
    scopeSize := 302
    wrapperSize := 600
    moveTo := 0
    point := 0 }

/-- The component `sixSlidesWide` after `#init` has fixed `moveTo = 600 - 302`
and before the first frame. -/
def sixSlidesWideStart : MarqueeComponent :=
  { speed := 5
    mode := .horizontal
    direction := .ltr
    children := setInnerHTML [100, 100, 100, 100, 100, 100]
    transforms := []
    scopeSize := 302
    wrapperSize := 600
    moveTo := 298
    point := 0 }

/-- Eight slides of width 100 in a component of width 300 moving 10 per frame,
after `#init` has fixed `moveTo = 500` and before the first frame. -/
def tenPerFrame : MarqueeComponent :=
  { speed := 10
    mode := .horizontal
    direction := .ltr
    children := setInnerHTML [100, 100, 100, 100, 100, 100, 100, 100]
    transforms := []
    scopeSize := 300
    wrapperSize := 800
    moveTo := 500
    point := 0 }

/-- A reversed column (`flex-direction: column-reverse`) without gaps: the child
of markup `m` is `m` high and 50 wide, the first child is at the bottom. -/
def columnReverseLayout (ms : List Nat) (i : Nat) : Box :=
  { offsetTop := (ms.sum : Nat) - ((ms.take (i + 1)).sum : Nat)
    offsetLeft := 0
    clientWidth := 50
    clientHeight := (ms.getD i 0 : Nat) }

/-- A 1000 x 800 window showing a component of the given height whose wrapper is
laid out by `columnReverseLayout`. -/
def columnHost (scopeHeight : ℚ) : Host :=
  { window := { innerWidth := 1000, innerHeight := 800 }
    scope := { offsetWidth := 50, offsetHeight := scopeHeight }
    layout := columnReverseLayout }

/-- A vertical right-to-left component of height 200 with three slides of
height 200 (content size 600), as measured by the mount listener. -/
def tallColumn : MarqueeComponent :=
  { speed := 5
    mode := .vertical
    direction := .rtl
    children := setInnerHTML [200, 200, 200]
    transforms := []
    scopeSize := 200
    wrapperSize := 600
    moveTo := 0
    point := 0 }

/-- A horizontal left-to-right component of width 200 with one slide of width
100, as measured by the mount listener before `#populateElements`. -/
def oneSlide : MarqueeComponent :=
  { speed := 5
    mode := .horizontal
    direction := .ltr
    children := setInnerHTML [100]
    transforms := []
    scopeSize := 200
    wrapperSize := 100
    moveTo := 0
    point := 0 }

/-- The component `oneSlide` with three copies of its slide. -/
def oneSlideTripled : MarqueeComponent :=
  { oneSlide with
    children := setInnerHTML [100, 100, 100]
    wrapperSize := 300 }

/-- A horizontal left-to-right component of width 300 without content. -/
def noSlides : MarqueeComponent :=
  { speed := 5
    mode := .horizontal
    direction := .ltr
    children := []
    transforms := []
    scopeSize := 300
    wrapperSize := 0
    moveTo := 0
    point := 0 }

/-- The first child of `lapDone` as laid out by `rowHost 300`. -/
def firstSlide : HTMLElement :=
  { node := { id := 0, markup := 100 }
    offsetTop := 0
    offsetLeft := 0
    clientWidth := 100
    clientHeight := 50 }

/-! ## Auxiliary facts -/

theorem populateLoop_spec (h : Host) (unit : List Nat) (fuel : Nat) :
    ∀ st st' : MarqueeComponent,
      st.wrapperSize = getElementsSize h.window (h.children st.children) st.mode st.direction →
      populateLoop h unit fuel st = some st' →
      st'.scopeSize = st.scopeSize ∧ st'.mode = st.mode ∧ st'.direction = st.direction ∧
      st'.wrapperSize =
        getElementsSize h.window (h.children st'.children) st'.mode st'.direction ∧
      ¬ st'.wrapperSize < st'.scopeSize + st'.scopeSize / 3 := by
  induction fuel with
  | zero =>
    intro st st' hm hr
    unfold populateLoop at hr
    by_cases hc : st.wrapperSize < st.scopeSize + st.scopeSize / 3
    · simp [hc] at hr
    · simp only [hc, if_false, Option.some.injEq] at hr
      subst hr
      exact ⟨rfl, rfl, rfl, hm, hc⟩
  | succ n ih =>
    intro st st' hm hr
    unfold populateLoop at hr
    by_cases hc : st.wrapperSize < st.scopeSize + st.scopeSize / 3
    · simp only [hc, if_true] at hr
      have := ih _ st' rfl hr
      simpa using this
    · simp only [hc, if_false, Option.some.injEq] at hr
      subst hr
      exact ⟨rfl, rfl, rfl, hm, hc⟩

theorem visible_foldl (w : Window) (mode : Mode) (dir : Direction) (point : ℚ)
    (els : List HTMLElement) :
    ∀ acc : Partition,
      els.foldl (fun acc el => updateElements acc (isInvisible w mode dir point el) el) acc =
        { visibleElements :=
            acc.visibleElements ++ els.filter (fun el => !isInvisible w mode dir point el)
          inVisibleElements :=
            acc.inVisibleElements ++ els.filter (fun el => isInvisible w mode dir point el) } := by
  induction els with
  | nil => intro acc; simp
  | cons e es ih =>
    intro acc
    rw [List.foldl_cons, ih]
    cases hinv : isInvisible w mode dir point e <;> simp [updateElements, hinv]

theorem visibleElements_eq (w : Window) (els : List HTMLElement) (mode : Mode)
    (dir : Direction) (point : ℚ) :
    (getVisibleElements w els mode dir point).visibleElements =
      els.filter (fun el => !isInvisible w mode dir point el) := by
  simp [getVisibleElements, visible_foldl]

theorem inVisibleElements_eq (w : Window) (els : List HTMLElement) (mode : Mode)
    (dir : Direction) (point : ℚ) :
    (getVisibleElements w els mode dir point).inVisibleElements =
      els.filter (fun el => isInvisible w mode dir point el) := by
  simp [getVisibleElements, visible_foldl]

theorem measureFrom_map_node (boxAt : Nat → Box) (ns : List Node) :
    ∀ i : Nat, (measureFrom boxAt i ns).map HTMLElement.node = ns := by
  induction ns with
  | nil => intro i; rfl
  | cons n ns ih => intro i; simp [measureFrom, ih]

theorem children_map_node (h : Host) (cs : List Node) :
    (h.children cs).map HTMLElement.node = cs :=
  measureFrom_map_node _ cs 0

theorem nodup_of_nodup_id {cs : List Node} (hid : (cs.map Node.id).Nodup) : cs.Nodup :=
  List.Nodup.of_map _ hid

theorem appendChild_of_mem {cs : List Node} (hid : (cs.map Node.id).Nodup) {s : Node}
    (hs : s ∈ cs) : appendChild cs s = cs.filter (fun c => decide (c ≠ s)) ++ [s] := by
  unfold appendChild
  congr 1
  apply List.filter_congr
  intro c hc
  by_cases hcs : c = s
  · simp [hcs]
  · have : c.id ≠ s.id := fun hEq => hcs (List.inj_on_of_nodup_map hid hc hs hEq)
    simp [hcs, this]

theorem foldl_appendChild (sub : List Node) :
    ∀ cs : List Node, (cs.map Node.id).Nodup → (∀ s ∈ sub, s ∈ cs) → sub.Nodup →
      sub.foldl appendChild cs = cs.filter (fun c => decide (c ∉ sub)) ++ sub := by
  induction sub with
  | nil => intro cs _ _ _; simp
  | cons s rest ih =>
    intro cs hid hmem hnd
    have hs : s ∈ cs := hmem s (List.mem_cons_self _ _)
    have hsrest : s ∉ rest := (List.nodup_cons.mp hnd).1
    have hrest : rest.Nodup := (List.nodup_cons.mp hnd).2
    rw [List.foldl_cons, appendChild_of_mem hid hs]
    have hperm : (cs.filter (fun c => decide (c ≠ s)) ++ [s]).Perm cs := by
      have h1 := List.filter_append_perm (fun c => decide (c ≠ s)) cs
      have h2 : cs.filter (fun c => !decide (c ≠ s)) = [s] := by
        have hf : cs.filter (fun c => !decide (c ≠ s)) = cs.filter (fun c => decide (c = s)) := by
          apply List.filter_congr
          intro c _
          by_cases hcs : c = s <;> simp [hcs]
        rw [hf, List.filter_eq, List.count_eq_one_of_mem (nodup_of_nodup_id hid) hs]
        rfl
      rw [h2] at h1
      exact h1
    have hid' : ((cs.filter (fun c => decide (c ≠ s)) ++ [s]).map Node.id).Nodup :=
      (List.Perm.nodup_iff (hperm.map Node.id)).mpr hid
    have hmem' : ∀ r ∈ rest, r ∈ cs.filter (fun c => decide (c ≠ s)) ++ [s] := by
      intro r hr
      exact hperm.mem_iff.mpr (hmem r (List.mem_cons_of_mem _ hr))
    rw [ih _ hid' hmem' hrest]
    simp only [List.filter_append, List.filter_filter, List.append_assoc]
    have hsf : [s].filter (fun c => decide (c ∉ rest)) = [s] := by simp [hsrest]
    rw [hsf]
    simp only [List.singleton_append]
    congr 1
    apply List.filter_congr
    intro c _
    by_cases h1 : c = s <;> by_cases h2 : c ∈ rest <;> simp [h1, h2]

theorem sizeStep_none (w : Window) (mode : Mode) (dir : Direction) (size : ℚ)
    (curr : HTMLElement) :
    sizeStep w mode dir (none, size) curr = (some curr, extent mode curr) := by
  cases mode <;> rfl

theorem sizeStep_some (w : Window) (mode : Mode) (dir : Direction) (prev : HTMLElement)
    (size : ℚ) (curr : HTMLElement) :
    sizeStep w mode dir (some prev, size) curr =
      (some curr,
        extent mode curr + size +
          (edge w mode dir curr - edge w mode dir prev - extent mode prev)) := by
  cases mode <;> cases dir <;> rfl

theorem foldl_sizeStep_chain (w : Window) (mode : Mode) (dir : Direction)
    (els : List HTMLElement) :
    ∀ (prev : HTMLElement) (size : ℚ),
      List.Chain (fun p c => edge w mode dir c = edge w mode dir p + extent mode p) prev els →
      (els.foldl (sizeStep w mode dir) (some prev, size)).2 =
        size + (els.map (extent mode)).sum := by
  induction els with
  | nil => intro prev size _; simp
  | cons c cs ih =>
    intro prev size hch
    rw [List.chain_cons] at hch
    rw [List.foldl_cons, sizeStep_some, ih c _ hch.2, hch.1]
    simp only [List.map_cons, List.sum_cons]
    ring

theorem getElementsSize_of_chain (w : Window) (mode : Mode) (dir : Direction)
    (els : List HTMLElement)
    (hch : List.Chain' (fun p c => edge w mode dir c = edge w mode dir p + extent mode p) els) :
    getElementsSize w els mode dir = (els.map (extent mode)).sum := by
  cases els with
  | nil => rfl
  | cons e es =>
    unfold getElementsSize
    rw [List.foldl_cons, sizeStep_none, foldl_sizeStep_chain w mode dir es e _ hch]
    simp

theorem parseFrom_markup (ms : List Nat) : ∀ i : Nat, innerHTML (parseFrom i ms) = ms := by
  induction ms with
  | nil => intro i; rfl
  | cons m ms ih => intro i; simp [parseFrom, innerHTML] at *; exact ih _

theorem innerHTML_setInnerHTML (ms : List Nat) : innerHTML (setInnerHTML ms) = ms :=
  parseFrom_markup ms 0

theorem populateLoop_children (h : Host) (unit : List Nat) (fuel : Nat) :
    ∀ st st' : MarqueeComponent, populateLoop h unit fuel st = some st' →
      ∃ k : Nat, k ≤ fuel ∧
        (st.wrapperSize < st.scopeSize + st.scopeSize / 3 → 1 ≤ k) ∧
        (k = 0 → st' = st) ∧
        innerHTML st'.children = innerHTML st.children ++ (List.replicate k unit).flatten := by
  induction fuel with
  | zero =>
    intro st st' hr
    unfold populateLoop at hr
    by_cases hc : st.wrapperSize < st.scopeSize + st.scopeSize / 3
    · simp [hc] at hr
    · simp only [hc, if_false, Option.some.injEq] at hr
      subst hr
      exact ⟨0, le_refl _, fun hlt => absurd hlt hc, fun _ => rfl, by simp⟩
  | succ n ih =>
    intro st st' hr
    unfold populateLoop at hr
    by_cases hc : st.wrapperSize < st.scopeSize + st.scopeSize / 3
    · simp only [hc, if_true] at hr
      obtain ⟨k, hk, -, -, hkids⟩ := ih _ st' hr
      refine ⟨k + 1, Nat.succ_le_succ hk, fun _ => Nat.le_add_left 1 k, by simp, ?_⟩
      rw [hkids]
      simp [innerHTML_setInnerHTML, List.replicate_succ, List.append_assoc]
    · simp only [hc, if_false, Option.some.injEq] at hr
      subst hr
      exact ⟨0, Nat.zero_le _, fun hlt => absurd hlt hc, fun _ => rfl, by simp⟩

theorem advance_fields (st : MarqueeComponent) :
    (advance st).children = st.children ∧ (advance st).point = st.point + st.speed ∧
    (advance st).mode = st.mode ∧ (advance st).direction = st.direction ∧
    (advance st).scopeSize = st.scopeSize ∧ (advance st).moveTo = st.moveTo ∧
    (advance st).speed = st.speed ∧ (advance st).wrapperSize = st.wrapperSize := by
  by_cases hv : st.mode = .vertical ∧ st.direction = .rtl <;> simp [advance, hv, moveWrapper]

theorem recycle_children (h : Host) (st : MarqueeComponent) :
    (recycle h st).children =
      ((getVisibleElements h.window (h.children st.children) st.mode st.direction
        st.point).inVisibleElements.map HTMLElement.node).foldl appendChild st.children := by
  by_cases hv : st.mode = .vertical ∧ st.direction = .rtl <;>
    simp [recycle, hv, moveWrapper, List.foldl_map]

theorem recycle_point (h : Host) (st : MarqueeComponent) :
    (recycle h st).point =
      getElementsSize h.window
        (getVisibleElements h.window (h.children st.children) st.mode st.direction
          st.point).visibleElements st.mode st.direction - st.scopeSize := by
  by_cases hv : st.mode = .vertical ∧ st.direction = .rtl <;> simp [recycle, hv, moveWrapper]

theorem animate_of_due (h : Host) (st : MarqueeComponent)
    (hdue : shouldAppendElements (advance st) = true) :
    animate h st = recycle h (advance st) := by
  simp [animate, hdue]

theorem animate_of_not_due (h : Host) (st : MarqueeComponent)
    (hdue : shouldAppendElements (advance st) = false) :
    animate h st = advance st := by
  simp [animate, hdue]

theorem filter_not_mem_map (els : List HTMLElement)
    (hnd : (els.map HTMLElement.node).Nodup) (p : HTMLElement → Bool) :
    (els.map HTMLElement.node).filter
        (fun c => decide (c ∉ (els.filter p).map HTMLElement.node)) =
      (els.filter (fun el => !p el)).map HTMLElement.node := by
  rw [List.filter_map]
  congr 1
  apply List.filter_congr
  intro e he
  simp only [Function.comp]
  by_cases hp : p e = true
  · have : e.node ∈ (els.filter p).map HTMLElement.node :=
      List.mem_map_of_mem _ (List.mem_filter.mpr ⟨he, hp⟩)
    simp [this, hp]
  · have : e.node ∉ (els.filter p).map HTMLElement.node := by
      intro hmem
      obtain ⟨e', he', hEq⟩ := List.mem_map.mp hmem
      have hee : e' = e :=
        List.inj_on_of_nodup_map hnd (List.mem_filter.mp he').1 he hEq
      rw [hee] at he'
      exact hp (List.mem_filter.mp he').2
    simp [this, hp]

/-- The net effect of the `appendChild` loop on a child list of distinct nodes. -/
theorem recycle_children_eq (h : Host) (cs : List Node) (hid : (cs.map Node.id).Nodup)
    (p : HTMLElement → Bool) :
    (((h.children cs).filter p).map HTMLElement.node).foldl appendChild cs =
      ((h.children cs).filter (fun el => !p el)).map HTMLElement.node ++
        ((h.children cs).filter p).map HTMLElement.node := by
  have hnd : ((h.children cs).map HTMLElement.node).Nodup := by
    rw [children_map_node]; exact nodup_of_nodup_id hid
  have hsub : (((h.children cs).filter p).map HTMLElement.node).Sublist cs := by
    have := (List.filter_sublist (p := p) (h.children cs)).map HTMLElement.node
    rwa [children_map_node] at this
  have hfilter := filter_not_mem_map (h.children cs) hnd p
  rw [children_map_node] at hfilter
  rw [foldl_appendChild _ cs hid (fun s hs => hsub.subset hs)
    (hsub.nodup (nodup_of_nodup_id hid)), hfilter]

theorem shouldAppendElements_of_not_vrtl (st : MarqueeComponent)
    (hdir : ¬ (st.mode = .vertical ∧ st.direction = .rtl)) :
    shouldAppendElements st = decide (st.point ≥ st.moveTo) := by
  simp [shouldAppendElements, hdir]

/-- The state after `n` frames none of which was a recycle. -/
theorem frames_of_not_due (h : Host) (st : MarqueeComponent) :
    ∀ n : Nat, (∀ k : Nat, 1 ≤ k → k ≤ n → dueInFrame h st k = false) →
      (frames h n st).point = st.point + n * st.speed ∧
      (frames h n st).speed = st.speed ∧ (frames h n st).moveTo = st.moveTo ∧
      (frames h n st).mode = st.mode ∧ (frames h n st).direction = st.direction ∧
      (frames h n st).children = st.children ∧ (frames h n st).scopeSize = st.scopeSize := by
  intro n
  induction n with
  | zero => intro _; simp [frames]
  | succ n ih =>
    intro hno
    obtain ⟨hp, hs, hm, hmo, hdi, hc, hsc⟩ :=
      ih (fun k hk1 hkn => hno k hk1 (Nat.le_succ_of_le hkn))
    have hdue : shouldAppendElements (advance (frames h n st)) = false := by
      have := hno (n + 1) (Nat.le_add_left 1 n) (le_refl _)
      simpa [dueInFrame] using this
    obtain ⟨ac, ap, amo, adi, asc, am, asp, -⟩ := advance_fields (frames h n st)
    simp only [frames]
    rw [animate_of_not_due h _ hdue, ap, asp, am, amo, adi, ac, asc, hp, hs, hm, hmo, hdi, hc,
      hsc]
    refine ⟨?_, rfl, rfl, rfl, rfl, rfl, rfl⟩
    push_cast
    ring

/-- In a frame that follows frames without recycle, recycling is due exactly when the
advanced point has reached `moveTo`. -/
theorem dueInFrame_iff (h : Host) (st : MarqueeComponent)
    (hdir : ¬ (st.mode = .vertical ∧ st.direction = .rtl)) (n : Nat)
    (hno : ∀ k : Nat, 1 ≤ k → k ≤ n → dueInFrame h st k = false) :
    (advance (frames h n st)).point = st.point + (n + 1 : ℕ) * st.speed ∧
    (dueInFrame h st (n + 1) = true ↔ st.point + (n + 1 : ℕ) * st.speed ≥ st.moveTo) := by
  obtain ⟨hp, hs, hm, hmo, hdi, -⟩ := frames_of_not_due h st n hno
  obtain ⟨-, ap, amo, adi, -, am, -⟩ := advance_fields (frames h n st)
  have hpt : (advance (frames h n st)).point = st.point + (n + 1 : ℕ) * st.speed := by
    rw [ap, hp, hs]; push_cast; ring
  refine ⟨hpt, ?_⟩
  have hdir' : ¬ ((advance (frames h n st)).mode = .vertical ∧
      (advance (frames h n st)).direction = .rtl) := by
    rw [amo, adi, hmo, hdi]; exact hdir
  simp only [dueInFrame, Nat.add_sub_cancel]
  rw [shouldAppendElements_of_not_vrtl _ hdir', hpt, am, hm]
  simp

theorem not_due_before (h : Host) (st : MarqueeComponent)
    (hdir : ¬ (st.mode = .vertical ∧ st.direction = .rtl)) :
    ∀ n : Nat, (∀ k : Nat, 1 ≤ k → k ≤ n → st.point + k * st.speed < st.moveTo) →
      ∀ k : Nat, 1 ≤ k → k ≤ n → dueInFrame h st k = false := by
  intro n
  induction n with
  | zero => intro _ k hk1 hk0; omega
  | succ n ih =>
    intro hlt k hk1 hkn
    have hprev := ih (fun k hk1 hkn => hlt k hk1 (Nat.le_succ_of_le hkn))
    by_cases hk : k ≤ n
    · exact hprev k hk1 hk
    · have hkeq : k = n + 1 := by omega
      subst hkeq
      have hiff := (dueInFrame_iff h st hdir n hprev).2
      have hl := hlt (n + 1) hk1 (le_refl _)
      cases hd : dueInFrame h st (n + 1) with
      | false => rfl
      | true => exact absurd (hiff.mp hd) (not_le.mpr hl)


/-- The frame of the first recycle is the least `n ≥ 1` with `n * speed ≥ moveTo`. -/
theorem first_due_iff (h : Host) (st : MarqueeComponent)
    (hdir : ¬ (st.mode = .vertical ∧ st.direction = .rtl)) (hp : st.point = 0) (n : Nat)
    (hn : 1 ≤ n) :
    (dueInFrame h st n = true ∧ ∀ k : Nat, 1 ≤ k → k < n → dueInFrame h st k = false) ↔
      ((n : ℚ) * st.speed ≥ st.moveTo ∧
        ∀ k : Nat, 1 ≤ k → k < n → (k : ℚ) * st.speed < st.moveTo) := by
  obtain ⟨j, rfl⟩ : ∃ j, n = j + 1 := ⟨n - 1, by omega⟩
  constructor
  · rintro ⟨hdue, hno⟩
    have hno' : ∀ k : Nat, 1 ≤ k → k ≤ j → dueInFrame h st k = false :=
      fun k hk1 hkj => hno k hk1 (Nat.lt_succ_of_le hkj)
    refine ⟨?_, ?_⟩
    · have := (dueInFrame_iff h st hdir j hno').2.mp hdue
      simpa [hp] using this
    · intro k hk1 hkn
      obtain ⟨i, rfl⟩ : ∃ i, k = i + 1 := ⟨k - 1, by omega⟩
      have hiff := (dueInFrame_iff h st hdir i
        (fun k hk1 hki => hno k hk1 (by omega))).2
      have hfalse := hno (i + 1) hk1 hkn
      by_contra hge
      have : dueInFrame h st (i + 1) = true := hiff.mpr (by simpa [hp] using not_lt.mp hge)
      rw [hfalse] at this
      exact Bool.noConfusion this
  · rintro ⟨hge, hlt⟩
    have hno := not_due_before h st hdir j
      (fun k hk1 hkj => by simpa [hp] using hlt k hk1 (Nat.lt_succ_of_le hkj))
    refine ⟨(dueInFrame_iff h st hdir j hno).2.mpr (by simpa [hp] using hge), ?_⟩
    intro k hk1 hkn
    exact hno k hk1 (Nat.le_of_lt_succ hkn)

theorem recycle_fields (h : Host) (st : MarqueeComponent) :
    (recycle h st).mode = st.mode ∧ (recycle h st).direction = st.direction ∧
    (recycle h st).scopeSize = st.scopeSize ∧ (recycle h st).moveTo = st.moveTo ∧
    (recycle h st).speed = st.speed ∧ (recycle h st).wrapperSize = st.wrapperSize := by
  by_cases hv : st.mode = .vertical ∧ st.direction = .rtl <;> simp [recycle, hv, moveWrapper]

theorem animate_fields (h : Host) (st : MarqueeComponent) :
    (animate h st).mode = st.mode ∧ (animate h st).direction = st.direction ∧
    (animate h st).scopeSize = st.scopeSize ∧ (animate h st).moveTo = st.moveTo ∧
    (animate h st).speed = st.speed ∧ (animate h st).wrapperSize = st.wrapperSize := by
  obtain ⟨-, -, amo, adi, asc, am, asp, aw⟩ := advance_fields st
  cases hdue : shouldAppendElements (advance st) with
  | false => rw [animate_of_not_due h st hdue]; exact ⟨amo, adi, asc, am, asp, aw⟩
  | true =>
    obtain ⟨rmo, rdi, rsc, rm, rsp, rw'⟩ := recycle_fields h (advance st)
    rw [animate_of_due h st hdue]
    exact ⟨rmo.trans amo, rdi.trans adi, rsc.trans asc, rm.trans am, rsp.trans asp,
      rw'.trans aw⟩

theorem frames_fields (h : Host) (st : MarqueeComponent) (n : Nat) :
    (frames h n st).mode = st.mode ∧ (frames h n st).direction = st.direction ∧
    (frames h n st).scopeSize = st.scopeSize ∧ (frames h n st).moveTo = st.moveTo ∧
    (frames h n st).speed = st.speed ∧ (frames h n st).wrapperSize = st.wrapperSize := by
  induction n with
  | zero => simp [frames]
  | succ n ih =>
    obtain ⟨h1, h2, h3, h4, h5, h6⟩ := ih
    obtain ⟨a1, a2, a3, a4, a5, a6⟩ := animate_fields h (frames h n st)
    simp only [frames]
    exact ⟨a1.trans h1, a2.trans h2, a3.trans h3, a4.trans h4, a5.trans h5, a6.trans h6⟩

theorem frames_animate (h : Host) (st : MarqueeComponent) (n : Nat) :
    frames h n (animate h st) = frames h (n + 1) st := by
  induction n with
  | zero => rfl
  | succ n ih => simp only [frames] at ih ⊢; rw [ih]

theorem moveWrapper_transforms (st : MarqueeComponent) (p : ℚ) :
    ∃ t : Translate, (moveWrapper st p).transforms = st.transforms ++ [t] :=
  ⟨_, rfl⟩

theorem animate_transforms (h : Host) (st : MarqueeComponent) :
    ∃ rest : List Translate, (animate h st).transforms = st.transforms ++ rest := by
  have hadv : ∃ t, (advance st).transforms = st.transforms ++ [t] := by
    by_cases hv : st.mode = .vertical ∧ st.direction = .rtl <;>
      simp [advance, hv, moveWrapper]
  obtain ⟨t, ht⟩ := hadv
  cases hdue : shouldAppendElements (advance st) with
  | false => rw [animate_of_not_due h st hdue]; exact ⟨[t], ht⟩
  | true =>
    rw [animate_of_due h st hdue]
    have hrec : ∃ u, (recycle h (advance st)).transforms = (advance st).transforms ++ [u] := by
      by_cases hv : (advance st).mode = .vertical ∧ (advance st).direction = .rtl <;>
        simp [recycle, hv, moveWrapper]
    obtain ⟨u, hu⟩ := hrec
    exact ⟨[t, u], by rw [hu, ht]; simp⟩

theorem initPosition_fields (st : MarqueeComponent) :
    (initPosition st).mode = st.mode ∧ (initPosition st).direction = st.direction ∧
    (initPosition st).scopeSize = st.scopeSize ∧
    (initPosition st).wrapperSize = st.wrapperSize ∧
    (initPosition st).speed = st.speed ∧ (initPosition st).point = st.point ∧
    (initPosition st).children = st.children := by
  by_cases hv : st.mode = .vertical ∧ st.direction = .rtl <;>
    simp [initPosition, hv, moveWrapper]

theorem recycle_point_eq (h : Host) (st : MarqueeComponent) :
    (recycle h st).point = visibleSize h st - st.scopeSize :=
  recycle_point h st

/-- The value of `point` after a frame in which recycling was due. -/
theorem animate_point_of_due (h : Host) (st : MarqueeComponent)
    (hdue : shouldAppendElements (advance st) = true) :
    (animate h st).point =
      getElementsSize h.window
        (getVisibleElements h.window (h.children st.children) st.mode st.direction
          (st.point + st.speed)).visibleElements st.mode st.direction - st.scopeSize := by
  obtain ⟨hc, hp, hmo, hdi, hsc, -⟩ := advance_fields st
  rw [animate_of_due h st hdue, recycle_point, hc, hp, hmo, hdi, hsc]

theorem frames_succ (h : Host) (st : MarqueeComponent) (n : Nat) :
    frames h (n + 1) st = animate h (frames h n st) :=
  rfl

theorem parseFrom_ids (ms : List Nat) :
    ∀ i : Nat, (parseFrom i ms).map Node.id = List.range' i ms.length := by
  induction ms with
  | nil => intro i; rfl
  | cons m ms ih => intro i; simp [parseFrom, ih, List.range'_succ]

/-- The children created by an `innerHTML` assignment are distinct nodes. -/
theorem setInnerHTML_nodup (ms : List Nat) : ((setInnerHTML ms).map Node.id).Nodup := by
  rw [setInnerHTML, parseFrom_ids]
  exact List.nodup_range' _ _

theorem populateLoop_margin (h : Host) (unit : List Nat) (fuel : Nat) :
    ∀ st st' : MarqueeComponent, populateLoop h unit fuel st = some st' →
      ¬ st'.wrapperSize < st'.scopeSize + st'.scopeSize / 3 := by
  induction fuel with
  | zero =>
    intro st st' hr
    unfold populateLoop at hr
    by_cases hc : st.wrapperSize < st.scopeSize + st.scopeSize / 3
    · simp [hc] at hr
    · simp only [hc, if_false, Option.some.injEq] at hr
      subst hr
      exact hc
  | succ n ih =>
    intro st st' hr
    unfold populateLoop at hr
    by_cases hc : st.wrapperSize < st.scopeSize + st.scopeSize / 3
    · simp only [hc, if_true] at hr
      exact ih _ st' hr
    · simp only [hc, if_false, Option.some.injEq] at hr
      subst hr
      exact hc

/-- The multiples of a double speed up to `moveTo + speed` are exact doubles. -/
theorem exactDouble_mul (s m : ℚ) (a j : ℕ) (ha : a ≤ 2 ^ 53) (hj : j ≤ 1074)
    (hsp : s = a / 2 ^ j) (hb : (m + s) * 2 ^ j ≤ 2 ^ 53) (n : ℕ)
    (hn : n ≤ 1 ∨ (n : ℚ) * s ≤ m + s) : ExactDouble (n * s) := by
  have hpow : (0 : ℚ) < 2 ^ j := by positivity
  have hmul : s * 2 ^ j = a := by rw [hsp]; field_simp
  refine ⟨n * a, j, ?_, hj, ?_⟩
  · rcases hn with h1 | h2
    · calc n * a ≤ 1 * a := Nat.mul_le_mul_right a h1
        _ = a := one_mul a
        _ ≤ 2 ^ 53 := ha
    · have : ((n * a : ℕ) : ℚ) ≤ ((2 ^ 53 : ℕ) : ℚ) := by
        push_cast
        calc (n : ℚ) * a = (n * s) * 2 ^ j := by rw [← hmul]; ring
          _ ≤ (m + s) * 2 ^ j := by
            exact mul_le_mul_of_nonneg_right h2 (le_of_lt hpow)
          _ ≤ 2 ^ 53 := hb
      exact_mod_cast this
  · rw [hsp]; push_cast; field_simp

theorem recycle_transforms_ltr (h : Host) (s : MarqueeComponent)
    (hmo : s.mode = .horizontal) (hdi : s.direction = .ltr) :
    (recycle h s).transforms =
      s.transforms ++ [{ axis := .X, minus := true, px := ⌈(recycle h s).point⌉ }] := by
  simp [recycle, hmo, hdi, moveWrapper]

/-- The value of `point` after a frame in which recycling was due, in a run. -/
theorem frames_point_of_due (h : Host) (st : MarqueeComponent) (n : Nat)
    (hdue : dueInFrame h st (n + 1) = true) :
    (frames h (n + 1) st).point =
      visibleSize h (advance (frames h n st)) - st.scopeSize := by
  have hdue' : shouldAppendElements (advance (frames h n st)) = true := by
    simpa [dueInFrame] using hdue
  rw [frames_succ, animate_of_due h _ hdue', recycle_point_eq,
    (advance_fields _).2.2.2.2.1, (frames_fields h st n).2.2.1]

/-! ## The claims -/

/-- C1: whenever `#populateElements` returns, the loop condition is false, that is
`wrapperSize ≥ scopeSize + scopeSize / 3`, with `scopeSize` unchanged; and when
`wrapperSize` was the measured size of the children on entry (as the mount listener
leaves it), it is on return `getElementsSize` of the grown child sequence, which is
therefore at least `scopeSize * 4 / 3`.  This holds for every content sequence, the
non-empty ones included. -/
theorem populateElements_margin (h : Host) (fuel : Nat) (st st' : MarqueeComponent)
    (hr : populateElements h fuel st = some st') :
    st'.scopeSize = st.scopeSize ∧
    st'.wrapperSize ≥ st'.scopeSize + st'.scopeSize / 3 ∧
    (st.wrapperSize =
        getElementsSize h.window (h.children st.children) st.mode st.direction →
      st'.wrapperSize =
        getElementsSize h.window (h.children st'.children) st.mode st.direction ∧
      getElementsSize h.window (h.children st'.children) st.mode st.direction ≥
        st.scopeSize * 4 / 3) := by
  have hmargin := populateLoop_margin h _ fuel st st' hr
  have hge : st'.wrapperSize ≥ st'.scopeSize + st'.scopeSize / 3 := not_lt.mp hmargin
  refine ⟨?_, hge, ?_⟩
  · by_cases hm : st.wrapperSize =
        getElementsSize h.window (h.children st.children) st.mode st.direction
    · exact (populateLoop_spec h _ fuel st st' hm hr).1
    · unfold populateElements at hr
      unfold populateLoop at hr
      by_cases hc : st.wrapperSize < st.scopeSize + st.scopeSize / 3
      · cases fuel with
        | zero => simp [hc] at hr
        | succ n =>
          simp only [hc, if_true] at hr
          exact (populateLoop_spec h _ n _ st' rfl hr).1
      · simp only [hc, if_false, Option.some.injEq] at hr
        subst hr
        rfl
  · intro hm
    obtain ⟨hsc, hmo, hdi, hms, -⟩ := populateLoop_spec h _ fuel st st' hm hr
    rw [hmo, hdi] at hms
    refine ⟨hms, ?_⟩
    rw [← hms, ← hsc]
    linarith

/-- C1 on three slides of width 100 in a component of width 300: the loop returns
after one duplication with `wrapperSize = 600`. -/
theorem populateElements_margin_witness :
    populateElements (rowHost 300) 1 threeSlides = some sixSlides ∧
    sixSlides.wrapperSize ≥ sixSlides.scopeSize + sixSlides.scopeSize / 3 :=
  have hr : populateElements (rowHost 300) 1 threeSlides = some sixSlides := by
    norm_num [populateElements, populateLoop, threeSlides, sixSlides, setInnerHTML, parseFrom,
      innerHTML, getElementsSize, Host.children, measureFrom, rowHost, rowLayout, sizeStep,
      elementOffset]
  ⟨hr, (populateElements_margin (rowHost 300) 1 threeSlides sixSlides hr).2.1⟩

/-- C2: for every element list, mode, direction and point, the two lists returned by
`getVisibleElements` are each a subsequence of the input (input order preserved), their
lengths add up to the input length, and together they hold every input element exactly
once: `visibleElements ++ inVisibleElements` is a permutation of the input, so each
element occurs in the two lists together as often as in the input. -/
theorem getVisibleElements_partition (w : Window) (els : List HTMLElement) (mode : Mode)
    (dir : Direction) (point : ℚ) :
    (getVisibleElements w els mode dir point).visibleElements.Sublist els ∧
    (getVisibleElements w els mode dir point).inVisibleElements.Sublist els ∧
    (getVisibleElements w els mode dir point).visibleElements.length +
      (getVisibleElements w els mode dir point).inVisibleElements.length = els.length ∧
    ((getVisibleElements w els mode dir point).visibleElements ++
      (getVisibleElements w els mode dir point).inVisibleElements).Perm els ∧
    ∀ el : HTMLElement,
      (getVisibleElements w els mode dir point).visibleElements.count el +
        (getVisibleElements w els mode dir point).inVisibleElements.count el = els.count el := by
  rw [visibleElements_eq, inVisibleElements_eq]
  have hperm : (els.filter (fun el => !isInvisible w mode dir point el) ++
      els.filter (fun el => isInvisible w mode dir point el)).Perm els :=
    List.perm_append_comm.trans (List.filter_append_perm _ els)
  refine ⟨List.filter_sublist _, List.filter_sublist _, ?_, hperm, ?_⟩
  · simpa using hperm.length_eq
  · intro el
    simpa using hperm.count_eq el

/-- C3: in every state whose children are distinct nodes and in which recycling is due
after the advance, the `appendChild` loop of `#animate` leaves the child sequence equal to
the visible elements followed by the invisible ones, each a subsequence of the children
before the step (original relative order); the new sequence is a permutation of the old
one, has the same length, and its nodes are still distinct: elements are moved, not
copied. -/
theorem animate_recycle_moves (h : Host) (st : MarqueeComponent)
    (hid : (st.children.map Node.id).Nodup)
    (hdue : shouldAppendElements (advance st) = true) :
    (animate h st).children =
      (getVisibleElements h.window (h.children st.children) st.mode st.direction
        (st.point + st.speed)).visibleElements.map HTMLElement.node ++
      (getVisibleElements h.window (h.children st.children) st.mode st.direction
        (st.point + st.speed)).inVisibleElements.map HTMLElement.node ∧
    (getVisibleElements h.window (h.children st.children) st.mode st.direction
        (st.point + st.speed)).visibleElements.Sublist (h.children st.children) ∧
    (getVisibleElements h.window (h.children st.children) st.mode st.direction
        (st.point + st.speed)).inVisibleElements.Sublist (h.children st.children) ∧
    (animate h st).children.Perm st.children ∧
    (animate h st).children.length = st.children.length ∧
    ((animate h st).children.map Node.id).Nodup := by
  obtain ⟨hc, hp, hmo, hdi, -⟩ := advance_fields st
  have hkids : (animate h st).children =
      (getVisibleElements h.window (h.children st.children) st.mode st.direction
        (st.point + st.speed)).visibleElements.map HTMLElement.node ++
      (getVisibleElements h.window (h.children st.children) st.mode st.direction
        (st.point + st.speed)).inVisibleElements.map HTMLElement.node := by
    rw [animate_of_due h st hdue, recycle_children, hc, hp, hmo, hdi, inVisibleElements_eq,
      visibleElements_eq, recycle_children_eq h st.children hid]
  have hperm : (animate h st).children.Perm st.children := by
    rw [hkids, visibleElements_eq, inVisibleElements_eq, ← List.map_append]
    have := (List.perm_append_comm.trans (List.filter_append_perm
      (fun el => isInvisible h.window st.mode st.direction (st.point + st.speed) el)
      (h.children st.children))).map HTMLElement.node
    rwa [children_map_node] at this
  refine ⟨hkids, ?_, ?_, hperm, hperm.length_eq, ?_⟩
  · rw [visibleElements_eq]; exact List.filter_sublist _
  · rw [inVisibleElements_eq]; exact List.filter_sublist _
  · exact (List.Perm.nodup_iff (hperm.map Node.id)).mpr hid

/-- C3 on `lapDone`: the frame that ends the first lap of six slides. -/
theorem animate_recycle_moves_witness :
    (lapDone.children.map Node.id).Nodup ∧
    shouldAppendElements (advance lapDone) = true ∧
    (animate (rowHost 300) lapDone).children.Perm lapDone.children ∧
    (animate (rowHost 300) lapDone).children.length = lapDone.children.length :=
  have hid : (lapDone.children.map Node.id).Nodup := setInnerHTML_nodup _
  have hdue : shouldAppendElements (advance lapDone) = true := by
    simp [shouldAppendElements, advance, moveWrapper, lapDone, sixSlides, threeSlides]
    norm_num
  ⟨hid, hdue, (animate_recycle_moves (rowHost 300) lapDone hid hdue).2.2.2.1,
    (animate_recycle_moves (rowHost 300) lapDone hid hdue).2.2.2.2.1⟩

/-- C4: immediately after a recycle event `point` is
`getElementsSize(visibleElements, mode, dir) - scopeSize`, where `visibleElements` is
the visible part of the partition of the children taken at the advanced point
`point + speed`; for every mode and direction. -/
theorem animate_rebase (h : Host) (st : MarqueeComponent)
    (hdue : shouldAppendElements (advance st) = true) :
    (animate h st).point =
      getElementsSize h.window
        (getVisibleElements h.window (h.children st.children) st.mode st.direction
          (st.point + st.speed)).visibleElements st.mode st.direction - st.scopeSize :=
  animate_point_of_due h st hdue

/-- C4 on `lapDone`: the frame that ends the first lap of six slides. -/
theorem animate_rebase_witness :
    shouldAppendElements (advance lapDone) = true ∧
    (animate (rowHost 300) lapDone).point =
      getElementsSize (rowHost 300).window
        (getVisibleElements (rowHost 300).window ((rowHost 300).children lapDone.children)
          lapDone.mode lapDone.direction
          (lapDone.point + lapDone.speed)).visibleElements lapDone.mode lapDone.direction -
        lapDone.scopeSize :=
  have hdue : shouldAppendElements (advance lapDone) = true := by
    simp [shouldAppendElements, advance, moveWrapper, lapDone, sixSlides, threeSlides]
    norm_num
  ⟨hdue, animate_rebase (rowHost 300) lapDone hdue⟩

/-- C5, the code at the failing input: a horizontal left-to-right component of width 302
with three slides of width 100 and speed 5 is populated to six slides (600 ≥ 4/3 * 302)
and started by `#init` from `point = 0`; after 59 frames `point = 295`, and in frame 60
the advanced point 300 ≥ `moveTo = 298` recycles the first three slides, which end at
100, 200 and 300, so `point` is re-based to `300 - 302 = -2 < 0`.  The transform that
`#moveWrapper` then writes is the text `translateX(--2px)`, which denotes no length:
the template of `#moveWrapper` relies on `point ≥ 0`, which the re-basing does not
keep. -/
theorem point_negative_after_recycle :
    onMount (rowHost 302) 1 (connected 5 .horizontal .ltr (setInnerHTML [100, 100, 100])) =
      some (init (rowHost 302) sixSlidesWide) ∧
    sixSlidesWide.wrapperSize ≥ 4 / 3 * sixSlidesWide.scopeSize ∧
    0 < sixSlidesWide.speed ∧ sixSlidesWide.point = 0 ∧
    sixSlidesWide.mode = .horizontal ∧ sixSlidesWide.direction = .ltr ∧
    (frames (rowHost 302) 58 (init (rowHost 302) sixSlidesWide)).point = 295 ∧
    (frames (rowHost 302) 59 (init (rowHost 302) sixSlidesWide)).point = -2 ∧
    (frames (rowHost 302) 59 (init (rowHost 302) sixSlidesWide)).point < 0 ∧
    (frames (rowHost 302) 59 (init (rowHost 302) sixSlidesWide)).transforms.getLast? =
      some { axis := .X, minus := true, px := -2 } ∧
    Translate.distance { axis := .X, minus := true, px := -2 } = none := by
  have hmount : onMount (rowHost 302) 1
      (connected 5 .horizontal .ltr (setInnerHTML [100, 100, 100])) =
      some (init (rowHost 302) sixSlidesWide) := by
    simp [onMount, connected, populateElements, populateLoop, getScopeSize, rowHost,
      setInnerHTML, parseFrom, innerHTML, getElementsSize, Host.children, measureFrom,
      rowLayout, sizeStep, elementOffset, sixSlidesWide]
    norm_num
  have hinit : initPosition sixSlidesWide = sixSlidesWideStart := by
    simp [initPosition, sixSlidesWide, sixSlidesWideStart]
    norm_num
  have hdir : ¬ (sixSlidesWideStart.mode = .vertical ∧
      sixSlidesWideStart.direction = .rtl) := by
    simp [sixSlidesWideStart]
  have hno := not_due_before (rowHost 302) sixSlidesWideStart hdir 59 (by
    intro k _ hk
    have : (k : ℚ) ≤ 59 := by exact_mod_cast hk
    simp only [sixSlidesWideStart]
    linarith)
  obtain ⟨hp, hsp, hm, hmo, hdi, hc, hsc⟩ :=
    frames_of_not_due (rowHost 302) sixSlidesWideStart 59 hno
  have hdue : shouldAppendElements
      (advance (frames (rowHost 302) 59 sixSlidesWideStart)) = true := by
    have := (dueInFrame_iff (rowHost 302) sixSlidesWideStart hdir 59 hno).2.mpr (by
      simp only [sixSlidesWideStart]; norm_num)
    simpa [dueInFrame] using this
  have h59 : (frames (rowHost 302) 59 (init (rowHost 302) sixSlidesWide)).point = -2 := by
    unfold init
    rw [frames_animate, hinit, frames_succ, animate_point_of_due _ _ hdue, hp, hsp, hmo, hdi,
      hc, hsc]
    simp [sixSlidesWideStart, getVisibleElements, updateElements, isInvisible, rowHost,
      setInnerHTML, parseFrom, Host.children, measureFrom, rowLayout, elementOffset]
    norm_num [getElementsSize, sizeStep, elementOffset]
  have hlast : (frames (rowHost 302) 59 (init (rowHost 302) sixSlidesWide)).transforms.getLast? =
      some { axis := .X, minus := true, px := -2 } := by
    have hpt : (recycle (rowHost 302)
        (advance (frames (rowHost 302) 59 sixSlidesWideStart))).point = -2 := by
      have := h59
      unfold init at this
      rwa [frames_animate, hinit, frames_succ, animate_of_due _ _ hdue] at this
    obtain ⟨-, -, amo, adi, -⟩ := advance_fields (frames (rowHost 302) 59 sixSlidesWideStart)
    unfold init
    rw [frames_animate, hinit, frames_succ, animate_of_due _ _ hdue,
      recycle_transforms_ltr _ _ (amo.trans hmo) (adi.trans hdi), hpt,
      List.getLast?_concat]
    have hceil : ⌈(-2 : ℚ)⌉ = -2 := by
      rw [show (-2 : ℚ) = ((-2 : ℤ) : ℚ) by norm_num]
      exact Int.ceil_intCast _
    rw [hceil]
  refine ⟨hmount, by norm_num [sixSlidesWide], by norm_num [sixSlidesWide], rfl, rfl, rfl,
    ?_, h59, by rw [h59]; norm_num, hlast, by decide⟩
  unfold init
  rw [frames_animate, hinit, hp]
  simp only [sixSlidesWideStart]
  norm_num

/-- C6: for every mode and direction `getElementsSize([]) = 0`, and for a single
element `e` the result is the extent of `e` along the axis (`clientWidth` for
HORIZONTAL, `clientHeight` for VERTICAL), whatever the offsets of `e` are. -/
theorem getElementsSize_nil_singleton (w : Window) (mode : Mode) (dir : Direction) :
    getElementsSize w [] mode dir = 0 ∧
    ∀ e : HTMLElement,
      getElementsSize w [e] mode dir =
        (match mode with
         | .horizontal => e.clientWidth
         | .vertical => e.clientHeight) ∧
      ∀ top left : ℚ,
        getElementsSize w [{ e with offsetTop := top, offsetLeft := left }] mode dir =
          getElementsSize w [e] mode dir := by
  refine ⟨rfl, fun e => ⟨rfl, fun top left => ?_⟩⟩
  cases mode <;> rfl

/-- C7: on a list laid out without gaps along the axis and direction (the edge offset
of each element is that of the previous one plus the previous extent) `getElementsSize`
is the sum of the extents.  Three elements of width 100 without gaps, HORIZONTAL-LTR,
measure 300; with `scopeSize = 300` this is below `300 + 300 / 3 = 400`, so a
`#populateElements` that returns has appended the content unit at least once and has
`wrapperSize ≥ 400`; on the gap-free row it returns after one duplication with 600. -/
theorem getElementsSize_contiguous :
    (∀ (w : Window) (els : List HTMLElement) (mode : Mode) (dir : Direction),
      els ≠ [] →
      List.Chain' (fun prev curr =>
        edge w mode dir curr = edge w mode dir prev + extent mode prev) els →
      getElementsSize w els mode dir = (els.map (extent mode)).sum) ∧
    (∀ (w : Window) (e1 e2 e3 : HTMLElement),
      e1.clientWidth = 100 → e2.clientWidth = 100 → e3.clientWidth = 100 →
      e2.offsetLeft = e1.offsetLeft + e1.clientWidth →
      e3.offsetLeft = e2.offsetLeft + e2.clientWidth →
      getElementsSize w [e1, e2, e3] .horizontal .ltr = 300) ∧
    ((300 : ℚ) < 300 + 300 / 3 ∧ (300 : ℚ) + 300 / 3 = 400 ∧ (300 : ℚ) * 4 / 3 = 400) ∧
    (∀ (h : Host) (fuel : Nat) (st st' : MarqueeComponent),
      st.scopeSize = 300 → st.wrapperSize = 300 →
      populateElements h fuel st = some st' →
      (∃ k : Nat, 1 ≤ k ∧
        innerHTML st'.children =
          innerHTML st.children ++ (List.replicate k (innerHTML st.children)).flatten) ∧
      st'.wrapperSize ≥ 400) ∧
    (getElementsSize (rowHost 300).window ((rowHost 300).children threeSlides.children)
        .horizontal .ltr = 300 ∧
      populateElements (rowHost 300) 1 threeSlides = some sixSlides ∧
      sixSlides.wrapperSize = 600 ∧
      innerHTML sixSlides.children = [100, 100, 100, 100, 100, 100]) := by
  refine ⟨?_, ?_, by norm_num, ?_, ?_⟩
  · intro w els mode dir _ hch
    exact getElementsSize_of_chain w mode dir els hch
  · intro w e1 e2 e3 h1 h2 h3 h12 h23
    have hch : List.Chain' (fun prev curr =>
        edge w .horizontal .ltr curr = edge w .horizontal .ltr prev +
          extent .horizontal prev) [e1, e2, e3] := by
      simp [List.Chain', edge, extent, elementOffset, h12, h23]
    rw [getElementsSize_of_chain w .horizontal .ltr _ hch]
    simp [extent, h1, h2, h3]
    norm_num
  · intro h fuel st st' hsc hw hr
    obtain ⟨k, -, hk1, -, hkids⟩ := populateLoop_children h _ fuel st st' hr
    have hmargin := populateLoop_margin h _ fuel st st' hr
    have hscope : st'.scopeSize = 300 := by
      by_cases hk : k = 0
      · exact absurd (hk1 (by rw [hw, hsc]; norm_num)) (by omega)
      · unfold populateElements at hr
        unfold populateLoop at hr
        have hc : st.wrapperSize < st.scopeSize + st.scopeSize / 3 := by
          rw [hw, hsc]; norm_num
        cases fuel with
        | zero => simp [hc] at hr
        | succ n =>
          simp only [hc, if_true] at hr
          exact (populateLoop_spec h _ n _ st' rfl hr).1.trans hsc
    refine ⟨⟨k, hk1 (by rw [hw, hsc]; norm_num), hkids⟩, ?_⟩
    have := not_lt.mp hmargin
    rw [hscope] at this
    linarith
  · refine ⟨?_, ?_, rfl, ?_⟩
    · norm_num [threeSlides, setInnerHTML, parseFrom, getElementsSize, Host.children,
        measureFrom, rowHost, rowLayout, sizeStep, elementOffset]
    · norm_num [populateElements, populateLoop, threeSlides, sixSlides, setInnerHTML,
        parseFrom, innerHTML, getElementsSize, Host.children, measureFrom, rowHost,
        rowLayout, sizeStep, elementOffset]
    · simp [sixSlides, innerHTML_setInnerHTML]

/-- C7 on the three slides of `threeSlides` as laid out by `rowHost 300`. -/
theorem getElementsSize_contiguous_witness :
    ((rowHost 300).children threeSlides.children ≠ [] ∧
      List.Chain' (fun prev curr =>
        edge (rowHost 300).window .horizontal .ltr curr =
          edge (rowHost 300).window .horizontal .ltr prev + extent .horizontal prev)
        ((rowHost 300).children threeSlides.children) ∧
      getElementsSize (rowHost 300).window ((rowHost 300).children threeSlides.children)
        .horizontal .ltr =
        (((rowHost 300).children threeSlides.children).map (extent .horizontal)).sum) ∧
    (threeSlides.scopeSize = 300 ∧ threeSlides.wrapperSize = 300 ∧
      populateElements (rowHost 300) 1 threeSlides = some sixSlides ∧
      sixSlides.wrapperSize ≥ 400) :=
  have hne : (rowHost 300).children threeSlides.children ≠ [] := by
    simp [threeSlides, setInnerHTML, parseFrom, Host.children, measureFrom]
  have hch : List.Chain' (fun prev curr =>
      edge (rowHost 300).window .horizontal .ltr curr =
        edge (rowHost 300).window .horizontal .ltr prev + extent .horizontal prev)
      ((rowHost 300).children threeSlides.children) := by
    simp [threeSlides, setInnerHTML, parseFrom, Host.children, measureFrom, rowHost, rowLayout,
      List.Chain', edge, extent, elementOffset]
    norm_num
  have hr : populateElements (rowHost 300) 1 threeSlides = some sixSlides :=
    getElementsSize_contiguous.2.2.2.2.2.1
  ⟨⟨hne, hch, getElementsSize_contiguous.1 _ _ _ _ hne hch⟩,
    ⟨rfl, rfl, hr, (getElementsSize_contiguous.2.2.2.1 _ 1 threeSlides sixSlides rfl rfl hr).2⟩⟩

/-- C8 fails as stated: eight slides of width 100 in a component of width 300 with
speed 10 and `moveTo = 500` run from `point = 0`; recycling is due in frame 50 and in no
earlier frame, `point = 490` after 49 frames, and after 50 frames `point` is not 500:
the recycle of frame 50 has re-based it to `300 - 300 = 0`. -/
theorem point_rebased_in_frame_50 :
    tenPerFrame.speed = 10 ∧ tenPerFrame.moveTo = 500 ∧ tenPerFrame.point = 0 ∧
    tenPerFrame.mode = .horizontal ∧ tenPerFrame.direction = .ltr ∧
    (∀ k : Nat, 1 ≤ k → k < 50 → dueInFrame (rowHost 300) tenPerFrame k = false) ∧
    dueInFrame (rowHost 300) tenPerFrame 50 = true ∧
    (frames (rowHost 300) 49 tenPerFrame).point = 490 ∧
    (frames (rowHost 300) 50 tenPerFrame).point = 0 ∧
    (frames (rowHost 300) 50 tenPerFrame).point ≠ 500 := by
  have hdir : ¬ (tenPerFrame.mode = .vertical ∧ tenPerFrame.direction = .rtl) := by
    simp [tenPerFrame]
  have hno := not_due_before (rowHost 300) tenPerFrame hdir 49 (by
    intro k _ hk
    have : (k : ℚ) ≤ 49 := by exact_mod_cast hk
    simp only [tenPerFrame]
    linarith)
  obtain ⟨hp, hsp, hm, hmo, hdi, hc, hsc⟩ := frames_of_not_due (rowHost 300) tenPerFrame 49 hno
  have hdue50 : dueInFrame (rowHost 300) tenPerFrame 50 = true :=
    (dueInFrame_iff (rowHost 300) tenPerFrame hdir 49 hno).2.mpr (by
      simp only [tenPerFrame]; norm_num)
  have hdue : shouldAppendElements (advance (frames (rowHost 300) 49 tenPerFrame)) = true := by
    simpa [dueInFrame] using hdue50
  have h50 : (frames (rowHost 300) 50 tenPerFrame).point = 0 := by
    rw [frames_succ, animate_point_of_due _ _ hdue, hp, hsp, hmo, hdi, hc, hsc]
    simp [tenPerFrame, getVisibleElements, updateElements, isInvisible, rowHost,
      setInnerHTML, parseFrom, Host.children, measureFrom, rowLayout, elementOffset]
    norm_num [getElementsSize, sizeStep, elementOffset]
  refine ⟨rfl, rfl, rfl, rfl, rfl, fun k hk1 hk => hno k hk1 (Nat.le_of_lt_succ hk), hdue50, ?_,
    h50, by rw [h50]; norm_num⟩
  rw [hp]
  simp only [tenPerFrame]
  norm_num


/-- C8 (amended): in a mode/direction other than VERTICAL+RTL, from `point = 0` with a
speed `s = a / 2 ^ j > 0` that is a double whose multiples up to `moveTo + s` are exact
doubles (every integer speed with `moveTo + s ≤ 2 ^ 53`), so that the additions of the
source do not round: after `n` frames in none of which recycling was due, `point = n * s`
and `moveTo` is unchanged, and the advance of the next frame gives `(n + 1) * s`, both
exact doubles; the first frame in which recycling is due is frame `n` exactly when `n` is
the least positive number with `n * s ≥ moveTo`, and such a frame exists; a frame in
which recycling is due ends with `point` re-based to `visibleSize - scopeSize`.  For
`s = 10` and `moveTo = 500`: `point = 490` after 49 frames, the advance of frame 50
brings `point` to 500, recycling is due in frame 50 and in no earlier frame, and after
frame 50 `point` is `visibleSize - scopeSize`. -/
theorem frames_monotonic_advance (h : Host) (st : MarqueeComponent)
    (hdir : ¬ (st.mode = .vertical ∧ st.direction = .rtl)) (hs : 0 < st.speed)
    (hp : st.point = 0) (a j : ℕ) (ha : a ≤ 2 ^ 53) (hj : j ≤ 1074)
    (hsp : st.speed = a / 2 ^ j) (hb : (st.moveTo + st.speed) * 2 ^ j ≤ 2 ^ 53) :
    (∀ n : Nat, (∀ k : Nat, 1 ≤ k → k ≤ n → dueInFrame h st k = false) →
      (frames h n st).point = n * st.speed ∧ (frames h n st).moveTo = st.moveTo ∧
      ExactDouble (frames h n st).point ∧
      (advance (frames h n st)).point = (n + 1 : ℕ) * st.speed ∧
      ExactDouble (advance (frames h n st)).point) ∧
    (∀ n : Nat, 1 ≤ n →
      ((dueInFrame h st n = true ∧ ∀ k : Nat, 1 ≤ k → k < n → dueInFrame h st k = false) ↔
        ((n : ℚ) * st.speed ≥ st.moveTo ∧
          ∀ k : Nat, 1 ≤ k → k < n → (k : ℚ) * st.speed < st.moveTo))) ∧
    (∃ n : Nat, 1 ≤ n ∧ dueInFrame h st n = true ∧
      ∀ k : Nat, 1 ≤ k → k < n → dueInFrame h st k = false) ∧
    (∀ n : Nat, dueInFrame h st (n + 1) = true →
      (frames h (n + 1) st).point =
        visibleSize h (advance (frames h n st)) - st.scopeSize) ∧
    (st.speed = 10 → st.moveTo = 500 →
      (frames h 49 st).point = 490 ∧ (advance (frames h 49 st)).point = 500 ∧
      dueInFrame h st 50 = true ∧
      (∀ k : Nat, 1 ≤ k → k < 50 → dueInFrame h st k = false) ∧
      (frames h 50 st).point = visibleSize h (advance (frames h 49 st)) - st.scopeSize) := by
  have hlt : ∀ n : Nat, (∀ k : Nat, 1 ≤ k → k ≤ n → dueInFrame h st k = false) →
      n ≤ 1 ∨ (n : ℚ) * st.speed ≤ st.moveTo + st.speed := by
    intro n hno
    cases n with
    | zero => exact Or.inl (Nat.zero_le 1)
    | succ i =>
      right
      have hiff := (dueInFrame_iff h st hdir i
        (fun k hk1 hki => hno k hk1 (Nat.le_succ_of_le hki))).2
      have hfalse := hno (i + 1) (Nat.le_add_left 1 i) (le_refl _)
      have hnot : ¬ st.point + ((i + 1 : ℕ) : ℚ) * st.speed ≥ st.moveTo := by
        intro hge
        rw [hiff.mpr hge] at hfalse
        exact Bool.noConfusion hfalse
      rw [hp, zero_add] at hnot
      linarith [not_le.mp hnot]
  refine ⟨?_, fun n hn => first_due_iff h st hdir hp n hn, ?_,
    fun n hd => frames_point_of_due h st n hd, ?_⟩
  · intro n hno
    obtain ⟨hpt, -, hm, -⟩ := frames_of_not_due h st n hno
    have hpt' : (frames h n st).point = n * st.speed := by rw [hpt, hp, zero_add]
    have hadv := (dueInFrame_iff h st hdir n hno).1
    rw [hp, zero_add] at hadv
    refine ⟨hpt', hm, ?_, hadv, ?_⟩
    · rw [hpt']
      exact exactDouble_mul st.speed st.moveTo a j ha hj hsp hb n (hlt n hno)
    · rw [hadv]
      refine exactDouble_mul st.speed st.moveTo a j ha hj hsp hb (n + 1) ?_
      cases n with
      | zero => exact Or.inl (le_refl _)
      | succ i =>
        right
        have hiff := (dueInFrame_iff h st hdir i
          (fun k hk1 hki => hno k hk1 (Nat.le_succ_of_le hki))).2
        have hfalse := hno (i + 1) (Nat.le_add_left 1 i) (le_refl _)
        have hnot : ¬ st.point + ((i + 1 : ℕ) : ℚ) * st.speed ≥ st.moveTo := by
          intro hge
          rw [hiff.mpr hge] at hfalse
          exact Bool.noConfusion hfalse
        rw [hp, zero_add] at hnot
        have := not_le.mp hnot
        push_cast at this ⊢
        linarith
  · have hex : ∃ n : Nat, 1 ≤ n ∧ (n : ℚ) * st.speed ≥ st.moveTo := by
      obtain ⟨n, hn⟩ := exists_nat_ge (st.moveTo / st.speed)
      refine ⟨n + 1, Nat.le_add_left 1 n, ?_⟩
      have h1 : st.moveTo ≤ n * st.speed := (div_le_iff₀ hs).mp hn
      push_cast
      nlinarith
    classical
    refine ⟨Nat.find hex, (Nat.find_spec hex).1, ?_⟩
    refine (first_due_iff h st hdir hp _ (Nat.find_spec hex).1).mpr
      ⟨(Nat.find_spec hex).2, ?_⟩
    intro k hk1 hkn
    have := Nat.find_min hex hkn
    exact not_le.mp (fun hge => this ⟨hk1, hge⟩)
  · intro h10 h500
    have hfirst := (first_due_iff h st hdir hp 50 (by norm_num)).mpr
      ⟨by rw [h10, h500]; norm_num, fun k hk1 hk50 => by
        rw [h10, h500]
        have : (k : ℚ) ≤ 49 := by exact_mod_cast Nat.le_of_lt_succ hk50
        linarith⟩
    have hno49 : ∀ k : Nat, 1 ≤ k → k ≤ 49 → dueInFrame h st k = false :=
      fun k hk1 hk => hfirst.2 k hk1 (Nat.lt_succ_of_le hk)
    obtain ⟨hpt, -⟩ := frames_of_not_due h st 49 hno49
    have hadv := (dueInFrame_iff h st hdir 49 hno49).1
    refine ⟨?_, ?_, hfirst.1, hfirst.2, frames_point_of_due h st 49 hfirst.1⟩
    · rw [hpt, hp, h10]; norm_num
    · rw [hadv, hp, h10]; norm_num

/-- C8 (amended) on `tenPerFrame`: speed `10 = 10 / 2 ^ 0` and `moveTo = 500`. -/
theorem frames_monotonic_advance_witness :
    ¬ (tenPerFrame.mode = .vertical ∧ tenPerFrame.direction = .rtl) ∧
    0 < tenPerFrame.speed ∧ tenPerFrame.point = 0 ∧
    10 ≤ 2 ^ 53 ∧ 0 ≤ 1074 ∧ tenPerFrame.speed = (10 : ℕ) / 2 ^ 0 ∧
    (tenPerFrame.moveTo + tenPerFrame.speed) * 2 ^ 0 ≤ 2 ^ 53 ∧
    tenPerFrame.speed = 10 ∧ tenPerFrame.moveTo = 500 ∧
    (frames (rowHost 300) 49 tenPerFrame).point = 490 ∧
    (advance (frames (rowHost 300) 49 tenPerFrame)).point = 500 ∧
    dueInFrame (rowHost 300) tenPerFrame 50 = true ∧
    (frames (rowHost 300) 50 tenPerFrame).point =
      visibleSize (rowHost 300) (advance (frames (rowHost 300) 49 tenPerFrame)) -
        tenPerFrame.scopeSize :=
  have hdir : ¬ (tenPerFrame.mode = .vertical ∧ tenPerFrame.direction = .rtl) := by
    simp [tenPerFrame]
  have hs : 0 < tenPerFrame.speed := by norm_num [tenPerFrame]
  have ha : 10 ≤ 2 ^ 53 := by norm_num
  have hsp : tenPerFrame.speed = (10 : ℕ) / 2 ^ 0 := by norm_num [tenPerFrame]
  have hb : (tenPerFrame.moveTo + tenPerFrame.speed) * 2 ^ 0 ≤ 2 ^ 53 := by
    norm_num [tenPerFrame]
  ⟨hdir, hs, rfl, ha, Nat.zero_le _, hsp, hb, rfl, rfl,
    ((frames_monotonic_advance (rowHost 300) tenPerFrame hdir hs rfl 10 0 ha (Nat.zero_le _)
      hsp hb).2.2.2.2 rfl rfl).1,
    ((frames_monotonic_advance (rowHost 300) tenPerFrame hdir hs rfl 10 0 ha (Nat.zero_le _)
      hsp hb).2.2.2.2 rfl rfl).2.1,
    ((frames_monotonic_advance (rowHost 300) tenPerFrame hdir hs rfl 10 0 ha (Nat.zero_le _)
      hsp hb).2.2.2.2 rfl rfl).2.2.1,
    ((frames_monotonic_advance (rowHost 300) tenPerFrame hdir hs rfl 10 0 ha (Nat.zero_le _)
      hsp hb).2.2.2.2 rfl rfl).2.2.2.2⟩

/-- C9: `#init` leaves `wrapperSize` and `scopeSize` unchanged; outside VERTICAL+RTL
it sets `moveTo = wrapperSize - scopeSize` and writes no transform before the first
frame; in VERTICAL+RTL it sets `moveTo = scopeSize - wrapperSize`, the negation, and
the first transform it writes, before the first frame, is the pre-positioning
`translateY` with display offset `moveTo`; with content size 600 and viewport size 200,
`moveTo = -400`. -/
theorem init_moveTo (h : Host) (st : MarqueeComponent) :
    (init h st).wrapperSize = st.wrapperSize ∧ (init h st).scopeSize = st.scopeSize ∧
    (¬ (st.mode = .vertical ∧ st.direction = .rtl) →
      (init h st).moveTo = st.wrapperSize - st.scopeSize ∧
      (initPosition st).transforms = st.transforms) ∧
    (st.mode = .vertical → st.direction = .rtl →
      (init h st).moveTo = st.scopeSize - st.wrapperSize ∧
      (init h st).moveTo = -(st.wrapperSize - st.scopeSize) ∧
      (initPosition st).transforms =
        st.transforms ++ [{ axis := .Y, minus := false, px := ⌈(init h st).moveTo⌉ }] ∧
      (∃ rest : List Translate, (init h st).transforms =
        st.transforms ++ { axis := .Y, minus := false, px := ⌈(init h st).moveTo⌉ } :: rest) ∧
      (st.wrapperSize = 600 → st.scopeSize = 200 → (init h st).moveTo = -400)) := by
  obtain ⟨-, -, asc, am, -, aw⟩ := animate_fields h (initPosition st)
  obtain ⟨-, -, isc, iw, -⟩ := initPosition_fields st
  unfold init
  refine ⟨aw.trans iw, asc.trans isc, ?_, ?_⟩
  · intro hv
    rw [am]
    simp [initPosition, hv]
  · intro hmo hdi
    have hm : (animate h (initPosition st)).moveTo = st.scopeSize - st.wrapperSize := by
      rw [am]; simp [initPosition, hmo, hdi, moveWrapper]
    have ht : (initPosition st).transforms = st.transforms ++
        [{ axis := .Y, minus := false, px := ⌈(animate h (initPosition st)).moveTo⌉ }] := by
      rw [hm]; simp [initPosition, hmo, hdi, moveWrapper]
    refine ⟨hm, by rw [hm]; ring, ht, ?_, ?_⟩
    · obtain ⟨rest, hrest⟩ := animate_transforms h (initPosition st)
      exact ⟨rest, by rw [hrest, ht]; simp⟩
    · intro hw hsc
      rw [hm, hw, hsc]; norm_num

/-- C9 on `tallColumn` (VERTICAL+RTL, 600 and 200) and on `threeSlides`
(HORIZONTAL-LTR). -/
theorem init_moveTo_witness :
    (tallColumn.mode = .vertical ∧ tallColumn.direction = .rtl ∧
      tallColumn.wrapperSize = 600 ∧ tallColumn.scopeSize = 200 ∧
      (init (columnHost 200) tallColumn).moveTo = -400) ∧
    (¬ (threeSlides.mode = .vertical ∧ threeSlides.direction = .rtl) ∧
      (init (rowHost 300) threeSlides).moveTo =
        threeSlides.wrapperSize - threeSlides.scopeSize) :=
  ⟨⟨rfl, rfl, rfl, rfl,
      ((init_moveTo (columnHost 200) tallColumn).2.2.2 rfl rfl).2.2.2.2 rfl rfl⟩,
    ⟨by simp [threeSlides],
      ((init_moveTo (rowHost 300) threeSlides).2.2.1 (by simp [threeSlides])).1⟩⟩

/-- C10 fails as stated: for VERTICAL+RTL with content size 600 and viewport size 200
the transform that `#init` writes before the first frame is the text
`translateY(-400px)`, a translation of -400 along Y, not of +400. -/
theorem init_transform_negative :
    tallColumn.mode = .vertical ∧ tallColumn.direction = .rtl ∧
    tallColumn.wrapperSize = 600 ∧ tallColumn.scopeSize = 200 ∧
    (initPosition tallColumn).transforms = [{ axis := .Y, minus := false, px := -400 }] ∧
    (init (columnHost 200) tallColumn).transforms.head? =
      some { axis := .Y, minus := false, px := -400 } ∧
    Translate.distance { axis := .Y, minus := false, px := -400 } = some (-400) ∧
    Translate.distance { axis := .Y, minus := false, px := -400 } ≠ some 400 := by
  refine ⟨rfl, rfl, rfl, rfl, ?_, ?_, by decide, by decide⟩
  · simp [initPosition, tallColumn, moveWrapper]
  · obtain ⟨rest, hrest⟩ := animate_transforms (columnHost 200) (initPosition tallColumn)
    have : (initPosition tallColumn).transforms =
        [{ axis := .Y, minus := false, px := -400 }] := by
      simp [initPosition, tallColumn, moveWrapper]
    unfold init
    rw [hrest, this]
    rfl

/-- C10 (amended): `#moveWrapper` writes one transform, along X for HORIZONTAL and
along Y for VERTICAL, whose number is `Math.ceil` of the display offset `p` it is given,
behind a literal minus sign exactly for LTR: the translation is `-⌈p⌉` for LTR (for
`⌈p⌉ ≥ 0`; for `⌈p⌉ < 0` the text denotes no length) and `⌈p⌉`, with the sign of the
offset, for RTL.  For VERTICAL+RTL with content size 600 and viewport size 200 the
transform written by `#init` before the first frame is `translateY(-400px)`, a
translation of -400 along Y. -/
theorem moveWrapper_translation (st : MarqueeComponent) (p : ℚ) :
    (∃ t : Translate,
      (moveWrapper st p).transforms = st.transforms ++ [t] ∧
      t.px = ⌈p⌉ ∧
      (t.axis = .X ↔ st.mode = .horizontal) ∧ (t.axis = .Y ↔ st.mode = .vertical) ∧
      (t.minus = true ↔ st.direction = .ltr) ∧
      (st.direction = .rtl → t.distance = some ⌈p⌉) ∧
      (st.direction = .ltr → 0 ≤ ⌈p⌉ → t.distance = some (-⌈p⌉)) ∧
      (st.direction = .ltr → ⌈p⌉ < 0 → t.distance = none)) ∧
    (st.mode = .vertical → st.direction = .rtl → st.wrapperSize = 600 → st.scopeSize = 200 →
      (initPosition st).transforms =
        st.transforms ++ [{ axis := .Y, minus := false, px := -400 }] ∧
      Translate.distance { axis := .Y, minus := false, px := -400 } = some (-400)) := by
  constructor
  · refine ⟨_, rfl, ?_⟩
    cases hm : st.mode <;> cases hd : st.direction <;>
      simp [Translate.distance]
  · intro hmo hdi hw hsc
    refine ⟨?_, by decide⟩
    simp [initPosition, hmo, hdi, hw, hsc, moveWrapper]

/-- C10 (amended) on `tallColumn`: VERTICAL+RTL with content size 600 and viewport
size 200. -/
theorem moveWrapper_translation_witness :
    tallColumn.mode = .vertical ∧ tallColumn.direction = .rtl ∧
    tallColumn.wrapperSize = 600 ∧ tallColumn.scopeSize = 200 ∧
    (initPosition tallColumn).transforms =
      tallColumn.transforms ++ [{ axis := .Y, minus := false, px := -400 }] :=
  ⟨rfl, rfl, rfl, rfl, ((moveWrapper_translation tallColumn 0).2 rfl rfl rfl rfl).1⟩

/-! ## Further auxiliary facts -/

theorem mem_visibleElements (w : Window) (els : List HTMLElement) (mode : Mode)
    (dir : Direction) (point : ℚ) (el : HTMLElement) :
    el ∈ (getVisibleElements w els mode dir point).visibleElements ↔
      el ∈ els ∧ isInvisible w mode dir point el = false := by
  rw [visibleElements_eq, List.mem_filter]
  simp

theorem mem_inVisibleElements (w : Window) (els : List HTMLElement) (mode : Mode)
    (dir : Direction) (point : ℚ) (el : HTMLElement) :
    el ∈ (getVisibleElements w els mode dir point).inVisibleElements ↔
      el ∈ els ∧ isInvisible w mode dir point el = true := by
  rw [inVisibleElements_eq, List.mem_filter]

theorem isInvisible_iff (w : Window) (mode : Mode) (dir : Direction) (point : ℚ)
    (el : HTMLElement) :
    isInvisible w mode dir point el = true ↔
      match mode, dir with
      | .horizontal, .ltr => (elementOffset w el).left + el.clientWidth ≤ point
      | .horizontal, .rtl => (elementOffset w el).right + el.clientWidth ≤ point
      | .vertical, .ltr => (elementOffset w el).top + el.clientHeight ≤ point
      | .vertical, .rtl => (elementOffset w el).bottom + el.clientHeight ≤ 0 := by
  cases mode <;> cases dir <;> simp [isInvisible]

theorem getVisibleElements_eq (w : Window) (els : List HTMLElement) (mode : Mode)
    (dir : Direction) (point : ℚ) :
    getVisibleElements w els mode dir point =
      { visibleElements := els.filter (fun el => !isInvisible w mode dir point el)
        inVisibleElements := els.filter (fun el => isInvisible w mode dir point el) } := by
  simp [getVisibleElements, visible_foldl]

theorem foldl_sizeStep_telescope (w : Window) (mode : Mode) (dir : Direction)
    (els : List HTMLElement) :
    ∀ (prev : HTMLElement) (size : ℚ),
      (els.foldl (sizeStep w mode dir) (some prev, size)).2 =
        size +
          (extent mode ((prev :: els).getLast (List.cons_ne_nil prev els)) +
            edge w mode dir ((prev :: els).getLast (List.cons_ne_nil prev els))) -
          (extent mode prev + edge w mode dir prev) := by
  induction els with
  | nil => intro prev size; simp
  | cons c cs ih =>
    intro prev size
    rw [List.foldl_cons, sizeStep_some, ih c]
    rw [List.getLast_cons (List.cons_ne_nil c cs)]
    ring

theorem getElementsSize_cons (w : Window) (mode : Mode) (dir : Direction)
    (e : HTMLElement) (es : List HTMLElement) :
    getElementsSize w (e :: es) mode dir =
      extent mode ((e :: es).getLast (List.cons_ne_nil e es)) +
        edge w mode dir ((e :: es).getLast (List.cons_ne_nil e es)) -
        edge w mode dir e := by
  unfold getElementsSize
  rw [List.foldl_cons, sizeStep_none, foldl_sizeStep_telescope]
  ring

theorem initPosition_moveTo (st : MarqueeComponent) :
    (initPosition st).moveTo =
      if st.mode = .vertical ∧ st.direction = .rtl then st.scopeSize - st.wrapperSize
      else st.wrapperSize - st.scopeSize := by
  by_cases hv : st.mode = .vertical ∧ st.direction = .rtl <;>
    simp [initPosition, hv, moveWrapper]

theorem shouldAppendElements_eq (st : MarqueeComponent) :
    shouldAppendElements st = true ↔
      if st.mode = .vertical ∧ st.direction = .rtl then st.moveTo + st.point ≥ 0
      else st.point ≥ st.moveTo := by
  by_cases hv : st.mode = .vertical ∧ st.direction = .rtl <;>
    simp [shouldAppendElements, hv]

/-- Recycling is due exactly when `point` has reached `wrapperSize - scopeSize`, in any
state whose mode, direction and `moveTo` are as `#init` leaves them. -/
theorem due_iff_of_moveTo (st s : MarqueeComponent) (hmo : s.mode = st.mode)
    (hdi : s.direction = st.direction)
    (hm : s.moveTo =
      if st.mode = .vertical ∧ st.direction = .rtl then st.scopeSize - st.wrapperSize
      else st.wrapperSize - st.scopeSize) :
    shouldAppendElements s = true ↔ s.point ≥ st.wrapperSize - st.scopeSize := by
  rw [shouldAppendElements_eq, hmo, hdi, hm]
  by_cases hv : st.mode = .vertical ∧ st.direction = .rtl
  · simp only [hv, and_self, if_true]
    constructor <;> intro hle <;> linarith
  · simp only [hv, if_false]

theorem populateLoop_zero (h : Host) (unit : List Nat) (st : MarqueeComponent) :
    populateLoop h unit 0 st = if populateCond st then none else some st := by
  unfold populateLoop populateCond
  by_cases hc : st.wrapperSize < st.scopeSize + st.scopeSize / 3 <;> simp [hc]

theorem populateLoop_succ (h : Host) (unit : List Nat) (fuel : Nat) (st : MarqueeComponent) :
    populateLoop h unit (fuel + 1) st =
      if populateCond st then populateLoop h unit fuel (populateStep h unit st) else some st := by
  conv_lhs => unfold populateLoop
  unfold populateCond
  by_cases hc : st.wrapperSize < st.scopeSize + st.scopeSize / 3 <;> simp [hc, populateStep]

/-- A loop that returns has run its body some `k` times: the condition held before each
of them and fails after the last. -/
theorem populateLoop_some (h : Host) (unit : List Nat) (fuel : Nat) :
    ∀ st st' : MarqueeComponent, populateLoop h unit fuel st = some st' →
      ∃ k : Nat, k ≤ fuel ∧ st' = populateIter h unit k st ∧
        (∀ j : Nat, j < k → populateCond (populateIter h unit j st)) ∧
        ¬ populateCond (populateIter h unit k st) := by
  induction fuel with
  | zero =>
    intro st st' hr
    rw [populateLoop_zero] at hr
    by_cases hc : populateCond st
    · simp [hc] at hr
    · simp only [hc, if_false, Option.some.injEq] at hr
      exact ⟨0, le_refl _, hr.symm, fun j hj => absurd hj (Nat.not_lt_zero j), hc⟩
  | succ n ih =>
    intro st st' hr
    rw [populateLoop_succ] at hr
    by_cases hc : populateCond st
    · simp only [hc, if_true] at hr
      obtain ⟨k, hk, hst, hlt, hnot⟩ := ih _ st' hr
      refine ⟨k + 1, Nat.succ_le_succ hk, hst, ?_, hnot⟩
      intro j hj
      cases j with
      | zero => exact hc
      | succ i => exact hlt i (Nat.lt_of_succ_lt_succ hj)
    · simp only [hc, if_false, Option.some.injEq] at hr
      exact ⟨0, Nat.zero_le _, hr.symm, fun j hj => absurd hj (Nat.not_lt_zero j), hc⟩

/-- The loop returns after `k` executions of its body as soon as the bound allows `k`. -/
theorem populateLoop_of_iter (h : Host) (unit : List Nat) (k : Nat) :
    ∀ (st : MarqueeComponent) (fuel : Nat), k ≤ fuel →
      (∀ j : Nat, j < k → populateCond (populateIter h unit j st)) →
      ¬ populateCond (populateIter h unit k st) →
      populateLoop h unit fuel st = some (populateIter h unit k st) := by
  induction k with
  | zero =>
    intro st fuel _ _ hnot
    have hc : ¬ populateCond st := hnot
    cases fuel with
    | zero => rw [populateLoop_zero]; simp [hc, populateIter]
    | succ n => rw [populateLoop_succ]; simp [hc, populateIter]
  | succ k ih =>
    intro st fuel hk hlt hnot
    obtain ⟨n, rfl⟩ : ∃ n, fuel = n + 1 := ⟨fuel - 1, by omega⟩
    have hc : populateCond st := hlt 0 (Nat.succ_pos k)
    rw [populateLoop_succ]
    simp only [hc, if_true]
    exact ih (populateStep h unit st) n (Nat.le_of_succ_le_succ hk)
      (fun j hj => hlt (j + 1) (Nat.succ_lt_succ hj)) hnot

/-- The loop is still running when the condition holds after each of the first `fuel`
executions of its body. -/
theorem populateLoop_none (h : Host) (unit : List Nat) (fuel : Nat) :
    ∀ st : MarqueeComponent,
      (∀ j : Nat, j ≤ fuel → populateCond (populateIter h unit j st)) →
      populateLoop h unit fuel st = none := by
  induction fuel with
  | zero =>
    intro st hlt
    have hc : populateCond st := hlt 0 (le_refl _)
    rw [populateLoop_zero]; simp [hc]
  | succ n ih =>
    intro st hlt
    have hc : populateCond st := hlt 0 (Nat.zero_le _)
    rw [populateLoop_succ]
    simp only [hc, if_true]
    exact ih _ (fun j hj => hlt (j + 1) (Nat.succ_le_succ hj))

theorem populateStep_fields (h : Host) (unit : List Nat) (st : MarqueeComponent) :
    (populateStep h unit st).scopeSize = st.scopeSize ∧
    (populateStep h unit st).mode = st.mode ∧
    (populateStep h unit st).direction = st.direction ∧
    innerHTML (populateStep h unit st).children = innerHTML st.children ++ unit ∧
    (populateStep h unit st).children = setInnerHTML (innerHTML st.children ++ unit) ∧
    (populateStep h unit st).wrapperSize =
      getElementsSize h.window (h.children (setInnerHTML (innerHTML st.children ++ unit)))
        st.mode st.direction :=
  ⟨rfl, rfl, rfl, innerHTML_setInnerHTML _, rfl, rfl⟩

theorem populateIter_fields (h : Host) (unit : List Nat) (k : Nat) :
    ∀ st : MarqueeComponent,
      (populateIter h unit k st).scopeSize = st.scopeSize ∧
      (populateIter h unit k st).mode = st.mode ∧
      (populateIter h unit k st).direction = st.direction ∧
      innerHTML (populateIter h unit k st).children =
        innerHTML st.children ++ (List.replicate k unit).flatten ∧
      (1 ≤ k →
        (populateIter h unit k st).children =
          setInnerHTML (innerHTML st.children ++ (List.replicate k unit).flatten) ∧
        (populateIter h unit k st).wrapperSize =
          getElementsSize h.window
            (h.children
              (setInnerHTML (innerHTML st.children ++ (List.replicate k unit).flatten)))
            st.mode st.direction) := by
  induction k with
  | zero => intro st; simp [populateIter]
  | succ k ih =>
    intro st
    obtain ⟨h1, h2, h3, h4, h5⟩ := ih (populateStep h unit st)
    obtain ⟨s1, s2, s3, s4, s5, s6⟩ := populateStep_fields h unit st
    have hflat : innerHTML st.children ++ unit ++ (List.replicate k unit).flatten =
        innerHTML st.children ++ (List.replicate (k + 1) unit).flatten := by
      simp [List.replicate_succ, List.append_assoc]
    simp only [populateIter]
    refine ⟨h1.trans s1, h2.trans s2, h3.trans s3, ?_, ?_⟩
    · rw [h4, s4, hflat]
    · intro _
      cases k with
      | zero =>
        simp only [populateIter]
        rw [s5, s6]
        simp
      | succ i =>
        obtain ⟨h5a, h5b⟩ := h5 (Nat.succ_pos i)
        rw [s4, s2, s3, hflat] at h5b
        rw [s4, hflat] at h5a
        exact ⟨h5a, h5b⟩

/-- After `j` executions of the loop body the measured size is that of `j + 1` copies. -/
theorem populateIter_wrapperSize (h : Host) (st : MarqueeComponent) (u : ℚ)
    (hw : st.wrapperSize = u)
    (hsize : ∀ k : Nat, 1 ≤ k →
      getElementsSize h.window
        (h.children (setInnerHTML (List.replicate k (innerHTML st.children)).flatten))
        st.mode st.direction = k * u) (j : Nat) :
    (populateIter h (innerHTML st.children) j st).wrapperSize = (j + 1 : ℕ) * u := by
  cases j with
  | zero => simp [populateIter, hw]
  | succ i =>
    obtain ⟨-, -, -, -, h5⟩ := populateIter_fields h (innerHTML st.children) (i + 1) st
    rw [(h5 (Nat.succ_pos i)).2]
    have hflat : innerHTML st.children ++
        (List.replicate (i + 1) (innerHTML st.children)).flatten =
        (List.replicate (i + 1 + 1) (innerHTML st.children)).flatten := by
      simp [List.replicate_succ]
    rw [hflat, hsize (i + 1 + 1) (Nat.succ_pos _)]

theorem populateIter_cond (h : Host) (st : MarqueeComponent) (u : ℚ)
    (hw : st.wrapperSize = u)
    (hsize : ∀ k : Nat, 1 ≤ k →
      getElementsSize h.window
        (h.children (setInnerHTML (List.replicate k (innerHTML st.children)).flatten))
        st.mode st.direction = k * u) (j : Nat) :
    populateCond (populateIter h (innerHTML st.children) j st) ↔
      ((j + 1 : ℕ) : ℚ) * u < st.scopeSize * 4 / 3 := by
  unfold populateCond
  rw [populateIter_wrapperSize h st u hw hsize j,
    (populateIter_fields h (innerHTML st.children) j st).1]
  constructor <;> intro hlt <;> linarith

theorem populateIter_copies (h : Host) (st : MarqueeComponent) (k : Nat) :
    innerHTML (populateIter h (innerHTML st.children) k st).children =
      (List.replicate (k + 1) (innerHTML st.children)).flatten := by
  rw [(populateIter_fields h (innerHTML st.children) k st).2.2.2.1]
  simp [List.replicate_succ]

theorem isInvisible_ltr (w : Window) (mode : Mode) (point : ℚ) (el : HTMLElement) :
    isInvisible w mode .ltr point el =
      decide (edge w mode .ltr el + extent mode el ≤ point) := by
  cases mode <;> rfl

theorem not_invisible_after (w : Window) (mode : Mode) (point : ℚ) (l : List HTMLElement) :
    ∀ a : HTMLElement,
      List.Chain (fun prev curr =>
        edge w mode .ltr curr = edge w mode .ltr prev + extent mode prev) a l →
      (∀ e ∈ l, 0 ≤ extent mode e) →
      isInvisible w mode .ltr point a = false →
      ∀ x ∈ l, isInvisible w mode .ltr point x = false := by
  induction l with
  | nil => intro a _ _ _ x hx; simp at hx
  | cons b l ih =>
    intro a hch hnn ha x hx
    rw [List.chain_cons] at hch
    have hb : isInvisible w mode .ltr point b = false := by
      rw [isInvisible_ltr] at ha ⊢
      have hge := hnn b (List.mem_cons_self _ _)
      simp only [decide_eq_false_iff_not, not_le] at ha ⊢
      rw [hch.1]
      linarith
    rcases List.mem_cons.mp hx with rfl | hx'
    · exact hb
    · exact ih b hch.2 (fun e he => hnn e (List.mem_cons_of_mem _ he)) hb x hx'

/-- On a gap-free left-to-right layout of elements of non-negative extent the invisible
elements are a prefix of the list and the visible ones the rest. -/
theorem filter_invisible_takeWhile (w : Window) (mode : Mode) (point : ℚ)
    (els : List HTMLElement) :
    GapFree w mode .ltr els → (∀ e ∈ els, 0 ≤ extent mode e) →
      els.filter (fun el => isInvisible w mode .ltr point el) =
        els.takeWhile (fun el => isInvisible w mode .ltr point el) ∧
      els.filter (fun el => !isInvisible w mode .ltr point el) =
        els.dropWhile (fun el => isInvisible w mode .ltr point el) := by
  induction els with
  | nil => intro _ _; simp
  | cons a l ih =>
    intro hch hnn
    have hl : GapFree w mode .ltr l := List.Chain'.tail hch
    obtain ⟨ih1, ih2⟩ := ih hl (fun e he => hnn e (List.mem_cons_of_mem _ he))
    cases ha : isInvisible w mode .ltr point a with
    | true =>
      simp [List.filter_cons, List.takeWhile_cons, List.dropWhile_cons, ha, ih1, ih2]
    | false =>
      have hall := not_invisible_after w mode point l a hch
        (fun e he => hnn e (List.mem_cons_of_mem _ he)) ha
      have h1 : l.filter (fun el => isInvisible w mode .ltr point el) = [] := by
        rw [List.filter_eq_nil_iff]
        intro x hx
        simp [hall x hx]
      have h2 : l.filter (fun el => !isInvisible w mode .ltr point el) = l := by
        rw [List.filter_eq_self]
        intro x hx
        simp [hall x hx]
      simp [List.filter_cons, List.takeWhile_cons, List.dropWhile_cons, ha, h1, h2]

theorem sum_extent_nonneg (mode : Mode) (els : List HTMLElement)
    (hnn : ∀ e ∈ els, 0 ≤ extent mode e) : 0 ≤ (els.map (extent mode)).sum :=
  List.sum_nonneg (fun x hx => by
    obtain ⟨e, he, rfl⟩ := List.mem_map.mp hx
    exact hnn e he)

/-- Prefix, rest and sizes of the partition on a gap-free left-to-right layout of
elements of non-negative extent. -/
theorem partition_gapFree (w : Window) (mode : Mode) (point : ℚ) (els : List HTMLElement)
    (hgf : GapFree w mode .ltr els) (hnn : ∀ e ∈ els, 0 ≤ extent mode e) :
    (getVisibleElements w els mode .ltr point).inVisibleElements =
      els.takeWhile (fun el => isInvisible w mode .ltr point el) ∧
    (getVisibleElements w els mode .ltr point).visibleElements =
      els.dropWhile (fun el => isInvisible w mode .ltr point el) ∧
    getElementsSize w (getVisibleElements w els mode .ltr point).inVisibleElements mode .ltr =
      ((els.takeWhile (fun el => isInvisible w mode .ltr point el)).map (extent mode)).sum ∧
    getElementsSize w (getVisibleElements w els mode .ltr point).visibleElements mode .ltr =
      ((els.dropWhile (fun el => isInvisible w mode .ltr point el)).map (extent mode)).sum ∧
    getElementsSize w (getVisibleElements w els mode .ltr point).visibleElements mode .ltr +
      getElementsSize w (getVisibleElements w els mode .ltr point).inVisibleElements mode
        .ltr = getElementsSize w els mode .ltr := by
  obtain ⟨h1, h2⟩ := filter_invisible_takeWhile w mode point els hgf hnn
  have hinv := (inVisibleElements_eq w els mode .ltr point).trans h1
  have hvis := (visibleElements_eq w els mode .ltr point).trans h2
  have hgf' : GapFree w mode .ltr
      (els.takeWhile (fun el => isInvisible w mode .ltr point el) ++
        els.dropWhile (fun el => isInvisible w mode .ltr point el)) := by
    rw [List.takeWhile_append_dropWhile]
    exact hgf
  have hsi := getElementsSize_of_chain w mode .ltr
    (els.takeWhile (fun el => isInvisible w mode .ltr point el))
    (List.Chain'.left_of_append hgf')
  have hsv := getElementsSize_of_chain w mode .ltr
    (els.dropWhile (fun el => isInvisible w mode .ltr point el))
    (List.Chain'.right_of_append hgf')
  refine ⟨hinv, hvis, by rw [hinv, hsi], by rw [hvis, hsv], ?_⟩
  rw [hinv, hvis, hsi, hsv, getElementsSize_of_chain w mode .ltr els hgf, add_comm,
    ← List.sum_append, ← List.map_append, List.takeWhile_append_dropWhile]

theorem takeWhile_eq_take_length {α : Type} (p : α → Bool) (l : List α) :
    l.takeWhile p = l.take (l.takeWhile p).length ∧
    l.dropWhile p = l.drop (l.takeWhile p).length := by
  have happ := List.takeWhile_append_dropWhile p l
  have h1 := @List.take_left _ (l.takeWhile p) (l.dropWhile p)
  have h2 := @List.drop_left _ (l.takeWhile p) (l.dropWhile p)
  rw [happ] at h1 h2
  exact ⟨h1.symm, h2.symm⟩

theorem sum_take_succ_getD (ms : List Nat) :
    ∀ j : Nat, (ms.take (j + 1)).sum = (ms.take j).sum + ms.getD j 0 := by
  induction ms with
  | nil => intro j; simp
  | cons m ms ih =>
    intro j
    cases j with
    | zero => simp
    | succ i =>
      simp only [List.take_succ_cons, List.sum_cons, List.getD_cons_succ]
      rw [ih i]
      omega

theorem rowLayout_gapFree (w : Window) (ms : List Nat) (ns : List Node) :
    ∀ i : Nat, GapFree w .horizontal .ltr (measureFrom (rowLayout ms) i ns) := by
  induction ns with
  | nil => intro i; simp [GapFree, measureFrom]
  | cons n ns ih =>
    intro i
    unfold GapFree
    rw [measureFrom, List.chain'_cons']
    refine ⟨?_, ih (i + 1)⟩
    intro y hy
    cases ns with
    | nil => simp [measureFrom] at hy
    | cons n' ns' =>
      simp only [measureFrom, List.head?_cons, Option.mem_def, Option.some.injEq] at hy
      subst hy
      simp only [edge, extent, elementOffset, rowLayout]
      rw [sum_take_succ_getD]
      push_cast
      ring

theorem rowLayout_extents (ms : List Nat) (ns : List Node) :
    ∀ i : Nat,
      (((measureFrom (rowLayout ms) i ns).map (extent .horizontal)).sum : ℚ) =
        ((ms.take (i + ns.length)).sum : ℕ) - ((ms.take i).sum : ℕ) := by
  induction ns with
  | nil => intro i; simp [measureFrom]
  | cons n ns ih =>
    intro i
    simp only [measureFrom, List.map_cons, List.sum_cons, List.length_cons]
    rw [ih (i + 1), sum_take_succ_getD ms i]
    simp only [extent, rowLayout]
    have : i + (ns.length + 1) = i + 1 + ns.length := by omega
    rw [this]
    push_cast
    ring

/-- On the gap-free row the children measure the sum of their widths. -/
theorem getElementsSize_rowHost (scopeWidth : ℚ) (cs : List Node) :
    getElementsSize (rowHost scopeWidth).window ((rowHost scopeWidth).children cs)
      .horizontal .ltr = ((innerHTML cs).sum : ℕ) := by
  have hgf := rowLayout_gapFree (rowHost scopeWidth).window (cs.map Node.markup) cs 0
  have hsum := rowLayout_extents (cs.map Node.markup) cs 0
  unfold GapFree at hgf
  rw [Host.children, show (rowHost scopeWidth).layout = rowLayout from rfl,
    getElementsSize_of_chain _ _ _ _ hgf, hsum]
  have hlen : 0 + cs.length = (cs.map Node.markup).length := by simp
  rw [hlen, List.take_length]
  simp [innerHTML]

theorem sum_flatten_replicate (k : Nat) (unit : List Nat) :
    (List.replicate k unit).flatten.sum = k * unit.sum := by
  induction k with
  | zero => simp
  | succ k ih => simp [List.replicate_succ, ih]; ring

/-- The measured size of the invisible prefix is at most the point of the partition, on
a gap-free left-to-right layout that starts at offset 0. -/
theorem invisible_size_le_point (w : Window) (mode : Mode) (point : ℚ)
    (els : List HTMLElement) (hgf : GapFree w mode .ltr els)
    (hnn : ∀ e ∈ els, 0 ≤ extent mode e)
    (h0 : ∀ e ∈ els.head?, edge w mode .ltr e = 0) (hpoint : 0 ≤ point) :
    getElementsSize w (getVisibleElements w els mode .ltr point).inVisibleElements mode
      .ltr ≤ point := by
  obtain ⟨hinv, -⟩ := partition_gapFree w mode point els hgf hnn
  rw [hinv]
  cases els with
  | nil => simpa [getElementsSize] using hpoint
  | cons e es =>
    have he0 : edge w mode .ltr e = 0 := h0 e (by simp)
    cases hie : isInvisible w mode .ltr point e with
    | false => simpa [List.takeWhile_cons, hie, getElementsSize] using hpoint
    | true =>
      rw [List.takeWhile_cons, hie]
      simp only [if_true]
      rw [getElementsSize_cons, he0, sub_zero]
      have hmem : (e :: es.takeWhile (fun el => isInvisible w mode .ltr point el)).getLast
          (List.cons_ne_nil _ _) ∈
          e :: es.takeWhile (fun el => isInvisible w mode .ltr point el) :=
        List.getLast_mem _
      have hlast : isInvisible w mode .ltr point
          ((e :: es.takeWhile (fun el => isInvisible w mode .ltr point el)).getLast
            (List.cons_ne_nil _ _)) = true := by
        rcases List.mem_cons.mp hmem with heq | hin
        · rw [heq]; exact hie
        · exact List.mem_takeWhile_imp hin
      rw [isInvisible_ltr] at hlast
      have := of_decide_eq_true hlast
      linarith

/-- One frame keeps `-speed ≤ point ≤ moveTo` on a gap-free left-to-right layout that
starts at offset 0: a recycle can take `point` below 0, but by no more than `speed`. -/
theorem animate_point_bounds (h : Host) (st : MarqueeComponent)
    (hdir : st.direction = .ltr)
    (hgf : GapFree h.window st.mode .ltr (h.children st.children))
    (hnn : ∀ e ∈ h.children st.children, 0 ≤ extent st.mode e)
    (h0 : ∀ e ∈ (h.children st.children).head?, edge h.window st.mode .ltr e = 0)
    (hm : st.moveTo = st.wrapperSize - st.scopeSize)
    (hw : st.wrapperSize = getElementsSize h.window (h.children st.children) st.mode .ltr)
    (hs : 0 ≤ st.speed) (hlo : -st.speed ≤ st.point) (hhi : st.point ≤ st.moveTo) :
    -st.speed ≤ (animate h st).point ∧ (animate h st).point ≤ st.moveTo ∧
    (shouldAppendElements (advance st) = false → 0 ≤ (animate h st).point) := by
  obtain ⟨-, ap, amo, adi, -, am, -⟩ := advance_fields st
  have hnv : ¬ ((advance st).mode = .vertical ∧ (advance st).direction = .rtl) := by
    rw [adi, hdir]; simp
  cases hdue : shouldAppendElements (advance st) with
  | false =>
    have hlt : ¬ st.point + st.speed ≥ st.moveTo := by
      have := hdue
      rw [shouldAppendElements_of_not_vrtl _ hnv, ap, am] at this
      simpa using this
    rw [animate_of_not_due h st hdue, ap]
    exact ⟨by linarith, by linarith [not_le.mp hlt], fun _ => by linarith⟩
  | true =>
    have hreach : st.point + st.speed ≥ st.moveTo := by
      have := hdue
      rw [shouldAppendElements_of_not_vrtl _ hnv, ap, am] at this
      simpa using this
    have hpt := animate_point_of_due h st hdue
    rw [hdir] at hpt
    obtain ⟨-, -, hsi, -, hadd⟩ :=
      partition_gapFree h.window st.mode (st.point + st.speed) (h.children st.children)
        hgf hnn
    have hle := invisible_size_le_point h.window st.mode (st.point + st.speed)
      (h.children st.children) hgf hnn h0 (by linarith)
    have hge : 0 ≤ getElementsSize h.window (getVisibleElements h.window
        (h.children st.children) st.mode .ltr (st.point + st.speed)).inVisibleElements
        st.mode .ltr := by
      rw [hsi]
      exact sum_extent_nonneg st.mode _
        (fun e he => hnn e ((List.takeWhile_sublist _).subset he))
    refine ⟨?_, ?_, fun hc => Bool.noConfusion hc⟩
    · rw [hpt]; linarith
    · rw [hpt]; linarith

/-! ## The claims, continued -/

/-- C11: an element of the list is classified invisible by `getVisibleElements` exactly
when `left + clientWidth ≤ point` (HORIZONTAL-LTR), `right + clientWidth ≤ point`
(HORIZONTAL-RTL), `top + clientHeight ≤ point` (VERTICAL-LTR), `bottom + clientHeight ≤ 0`
(VERTICAL-RTL), and visible otherwise; so in VERTICAL-RTL the result is the same for
every value of `point`. -/
theorem getVisibleElements_classifies (w : Window) (els : List HTMLElement) (point : ℚ)
    (el : HTMLElement) :
    (el ∈ (getVisibleElements w els .horizontal .ltr point).inVisibleElements ↔
      el ∈ els ∧ (elementOffset w el).left + el.clientWidth ≤ point) ∧
    (el ∈ (getVisibleElements w els .horizontal .rtl point).inVisibleElements ↔
      el ∈ els ∧ (elementOffset w el).right + el.clientWidth ≤ point) ∧
    (el ∈ (getVisibleElements w els .vertical .ltr point).inVisibleElements ↔
      el ∈ els ∧ (elementOffset w el).top + el.clientHeight ≤ point) ∧
    (el ∈ (getVisibleElements w els .vertical .rtl point).inVisibleElements ↔
      el ∈ els ∧ (elementOffset w el).bottom + el.clientHeight ≤ 0) ∧
    (∀ (mode : Mode) (dir : Direction),
      (el ∈ (getVisibleElements w els mode dir point).visibleElements ↔
        el ∈ els ∧ el ∉ (getVisibleElements w els mode dir point).inVisibleElements)) ∧
    (∀ point' : ℚ,
      getVisibleElements w els .vertical .rtl point =
        getVisibleElements w els .vertical .rtl point') := by
  refine ⟨?_, ?_, ?_, ?_, ?_, ?_⟩
  · rw [mem_inVisibleElements, isInvisible_iff]
  · rw [mem_inVisibleElements, isInvisible_iff]
  · rw [mem_inVisibleElements, isInvisible_iff]
  · rw [mem_inVisibleElements, isInvisible_iff]
  · intro mode dir
    rw [mem_visibleElements, mem_inVisibleElements]
    constructor
    · rintro ⟨hmem, hf⟩
      exact ⟨hmem, fun hinv => by rw [hf] at hinv; exact Bool.noConfusion hinv.2⟩
    · rintro ⟨hmem, hn⟩
      refine ⟨hmem, ?_⟩
      cases hc : isInvisible w mode dir point el with
      | false => rfl
      | true => exact absurd ⟨hmem, hc⟩ hn
  · intro point'
    rw [getVisibleElements_eq, getVisibleElements_eq]
    rfl

/-- C12 fails as stated: one slide of width 100 in a component of width 200 needs two
iterations of the loop (one is not enough), after which the children are three copies
of the slide, not `2 ^ 2 = 4`. -/
theorem populateElements_three_copies :
    populateElements (rowHost 200) 1 oneSlide = none ∧
    populateElements (rowHost 200) 2 oneSlide = some oneSlideTripled ∧
    populateIter (rowHost 200) (innerHTML oneSlide.children) 2 oneSlide = oneSlideTripled ∧
    innerHTML oneSlide.children = [100] ∧
    innerHTML oneSlideTripled.children = [100, 100, 100] ∧
    innerHTML oneSlideTripled.children ≠
      (List.replicate (2 ^ 2) (innerHTML oneSlide.children)).flatten ∧
    oneSlideTripled.children.length = 3 ∧
    oneSlideTripled.children.length ≠ 2 ^ 2 * oneSlide.children.length := by
  refine ⟨?_, ?_, ?_, ?_, ?_, ?_, ?_, ?_⟩
  · simp [populateElements, populateLoop, oneSlide, setInnerHTML, parseFrom, innerHTML,
      getElementsSize, Host.children, measureFrom, rowHost, rowLayout, sizeStep, elementOffset]
    norm_num
  · simp [populateElements, populateLoop, oneSlide, oneSlideTripled, setInnerHTML, parseFrom,
      innerHTML, getElementsSize, Host.children, measureFrom, rowHost, rowLayout, sizeStep,
      elementOffset]
    norm_num
  · simp [populateIter, populateStep, oneSlide, oneSlideTripled, setInnerHTML, parseFrom,
      innerHTML, getElementsSize, Host.children, measureFrom, rowHost, rowLayout, sizeStep,
      elementOffset]
    norm_num
  · simp [oneSlide, innerHTML_setInnerHTML]
  · simp [oneSlideTripled, innerHTML_setInnerHTML]
  · simp [oneSlide, oneSlideTripled, innerHTML_setInnerHTML]
  · simp [oneSlideTripled, setInnerHTML, parseFrom]
  · simp [oneSlide, oneSlideTripled, setInnerHTML, parseFrom]

/-- C12 (amended): each iteration of the loop of `#populateElements` appends one copy of
the content unit captured before the loop, so the element count grows by the length of
the unit; after `k` iterations the children are `k + 1` copies of the unit, and a loop
that returns has done so after some `k` iterations with `k + 1` copies. -/
theorem populateElements_appends_unit (h : Host) (st : MarqueeComponent) :
    (∀ s : MarqueeComponent,
      innerHTML (populateStep h (innerHTML st.children) s).children =
        innerHTML s.children ++ innerHTML st.children ∧
      (populateStep h (innerHTML st.children) s).children.length =
        s.children.length + st.children.length) ∧
    (∀ k : Nat,
      innerHTML (populateIter h (innerHTML st.children) k st).children =
        (List.replicate (k + 1) (innerHTML st.children)).flatten ∧
      (populateIter h (innerHTML st.children) k st).children.length =
        (k + 1) * st.children.length) ∧
    (∀ (fuel : Nat) (st' : MarqueeComponent), populateElements h fuel st = some st' →
      ∃ k : Nat, k ≤ fuel ∧ st' = populateIter h (innerHTML st.children) k st ∧
        innerHTML st'.children = (List.replicate (k + 1) (innerHTML st.children)).flatten ∧
        st'.children.length = (k + 1) * st.children.length) := by
  have hlen : ∀ cs : List Node, (innerHTML cs).length = cs.length := fun cs => by
    simp [innerHTML]
  have hiter : ∀ k : Nat,
      innerHTML (populateIter h (innerHTML st.children) k st).children =
        (List.replicate (k + 1) (innerHTML st.children)).flatten ∧
      (populateIter h (innerHTML st.children) k st).children.length =
        (k + 1) * st.children.length := by
    intro k
    have hc := populateIter_copies h st k
    refine ⟨hc, ?_⟩
    rw [← hlen, hc]
    simp [hlen]
  refine ⟨?_, hiter, ?_⟩
  · intro s
    have hs := (populateStep_fields h (innerHTML st.children) s).2.2.2.1
    refine ⟨hs, ?_⟩
    rw [← hlen, hs]
    simp [hlen]
  · intro fuel st' hr
    obtain ⟨k, hk, hst, -, -⟩ := populateLoop_some h _ fuel st st' hr
    refine ⟨k, hk, hst, ?_, ?_⟩
    · rw [hst]; exact (hiter k).1
    · rw [hst]; exact (hiter k).2

/-- C12 (amended) on `oneSlide`: the loop returns after two iterations with three
copies. -/
theorem populateElements_appends_unit_witness :
    populateElements (rowHost 200) 2 oneSlide = some oneSlideTripled ∧
    ∃ k : Nat, k ≤ 2 ∧
      oneSlideTripled = populateIter (rowHost 200) (innerHTML oneSlide.children) k oneSlide ∧
      innerHTML oneSlideTripled.children =
        (List.replicate (k + 1) (innerHTML oneSlide.children)).flatten ∧
      oneSlideTripled.children.length = (k + 1) * oneSlide.children.length :=
  have hr : populateElements (rowHost 200) 2 oneSlide = some oneSlideTripled := by
    simp [populateElements, populateLoop, oneSlide, oneSlideTripled, setInnerHTML, parseFrom,
      innerHTML, getElementsSize, Host.children, measureFrom, rowHost, rowLayout, sizeStep,
      elementOffset]
    norm_num
  ⟨hr, (populateElements_appends_unit (rowHost 200) oneSlide).2.2 2 oneSlideTripled hr⟩

/-- C13: `#shouldAppendElements` returns true exactly when `moveTo + point ≥ 0` in
VERTICAL+RTL and when `point ≥ moveTo` otherwise.  With `moveTo` as set by `#init` both
say `point ≥ wrapperSize - scopeSize`: this holds for every value of `point` right after
the positioning of `#init`, and in every frame of the run started by `#init`, where the
test is made on the advanced point. -/
theorem shouldAppendElements_due (st : MarqueeComponent) :
    (shouldAppendElements st = true ↔
      if st.mode = .vertical ∧ st.direction = .rtl then st.moveTo + st.point ≥ 0
      else st.point ≥ st.moveTo) ∧
    (∀ p : ℚ, shouldAppendElements { initPosition st with point := p } = true ↔
      p ≥ st.wrapperSize - st.scopeSize) ∧
    (∀ (h : Host) (n : Nat),
      (shouldAppendElements (advance (frames h n (init h st))) = true ↔
        (advance (frames h n (init h st))).point ≥ st.wrapperSize - st.scopeSize) ∧
      (dueInFrame h (init h st) (n + 1) = true ↔
        (frames h n (init h st)).point + st.speed ≥ st.wrapperSize - st.scopeSize)) := by
  refine ⟨shouldAppendElements_eq st, ?_, ?_⟩
  · intro p
    obtain ⟨imo, idi, -⟩ := initPosition_fields st
    exact due_iff_of_moveTo st { initPosition st with point := p } imo idi
      (initPosition_moveTo st)
  · intro h n
    obtain ⟨imo, idi, -, -, isp, -⟩ := initPosition_fields st
    obtain ⟨amo, adi, -, am, asp, -⟩ := animate_fields h (initPosition st)
    obtain ⟨fmo, fdi, -, fm, fsp, -⟩ := frames_fields h (init h st) n
    obtain ⟨-, vp, vmo, vdi, -, vm, -⟩ := advance_fields (frames h n (init h st))
    have hiff := due_iff_of_moveTo st (advance (frames h n (init h st)))
      (vmo.trans (fmo.trans (amo.trans imo))) (vdi.trans (fdi.trans (adi.trans idi)))
      (vm.trans (fm.trans (am.trans (initPosition_moveTo st))))
    refine ⟨hiff, ?_⟩
    have hsp : (frames h n (init h st)).speed = st.speed := fsp.trans (asp.trans isp)
    simp only [dueInFrame, Nat.add_sub_cancel]
    rw [hiff, vp, hsp]

/-- C14: for an `HTMLElement`, `getElementOffset` returns the record with
`top = offsetTop`, `left = offsetLeft`, `right = innerWidth - left - clientWidth` and
`bottom = innerHeight - top - clientHeight`, so that `left + clientWidth + right` is the
window width and `top + clientHeight + bottom` the window height; it returns nothing
exactly when its argument is not such an element. -/
theorem getElementOffset_spec (w : Window) :
    (∀ el : HTMLElement,
      ∃ o : Offset, getElementOffset w (.element el) = some o ∧
        o.top = el.offsetTop ∧ o.left = el.offsetLeft ∧
        o.right = w.innerWidth - o.left - el.clientWidth ∧
        o.bottom = w.innerHeight - o.top - el.clientHeight ∧
        o.left + el.clientWidth + o.right = w.innerWidth ∧
        o.top + el.clientHeight + o.bottom = w.innerHeight) ∧
    (∀ v : Value, getElementOffset w v = none ↔ ∀ el : HTMLElement, v ≠ .element el) ∧
    getElementOffset w .other = none := by
  refine ⟨?_, ?_, rfl⟩
  · intro el
    refine ⟨elementOffset w el, rfl, rfl, rfl, rfl, rfl, ?_, ?_⟩ <;>
      simp only [elementOffset] <;> ring
  · intro v
    cases v with
    | element el => simp [getElementOffset]
    | other => simp [getElementOffset]

/-- C15: for a non-empty list `getElementsSize` is `extent(last) + edge(last) - edge(first)`,
where `edge` is `left`, `right`, `top` or `bottom` for HORIZONTAL-LTR, HORIZONTAL-RTL,
VERTICAL-LTR, VERTICAL-RTL and `extent` is `clientWidth` or `clientHeight`; the result
is the same whatever elements stand between the first and the last. -/
theorem getElementsSize_closed_form (w : Window) (mode : Mode) (dir : Direction) :
    (∀ (e : HTMLElement) (es : List HTMLElement),
      getElementsSize w (e :: es) mode dir =
        extent mode ((e :: es).getLast (List.cons_ne_nil e es)) +
          edge w mode dir ((e :: es).getLast (List.cons_ne_nil e es)) -
          edge w mode dir e) ∧
    (∀ (first last : HTMLElement) (mid mid' : List HTMLElement),
      getElementsSize w (first :: (mid ++ [last])) mode dir =
        extent mode last + edge w mode dir last - edge w mode dir first ∧
      getElementsSize w (first :: (mid ++ [last])) mode dir =
        getElementsSize w (first :: (mid' ++ [last])) mode dir) ∧
    (∀ el : HTMLElement,
      edge w .horizontal .ltr el = (elementOffset w el).left ∧
      edge w .horizontal .rtl el = (elementOffset w el).right ∧
      edge w .vertical .ltr el = (elementOffset w el).top ∧
      edge w .vertical .rtl el = (elementOffset w el).bottom ∧
      extent .horizontal el = el.clientWidth ∧ extent .vertical el = el.clientHeight) := by
  have hmid : ∀ (first last : HTMLElement) (mid : List HTMLElement),
      getElementsSize w (first :: (mid ++ [last])) mode dir =
        extent mode last + edge w mode dir last - edge w mode dir first := by
    intro first last mid
    rw [getElementsSize_cons]
    have : (first :: (mid ++ [last])).getLast (List.cons_ne_nil _ _) = last := by
      simp [List.getLast_cons]
    rw [this]
  refine ⟨fun e es => getElementsSize_cons w mode dir e es, ?_, ?_⟩
  · intro first last mid mid'
    exact ⟨hmid first last mid, by rw [hmid first last mid, hmid first last mid']⟩
  · intro el
    exact ⟨rfl, rfl, rfl, rfl, rfl, rfl⟩

/-- C16: let `k` copies of the content unit measure `k * u` for every `k ≥ 1`, with
`u ≥ 0` the measured `wrapperSize` on entry and `scopeSize ≥ 0`.  Then `#populateElements`
returns for some bound on its iterations exactly when `u > 0` or `scopeSize = 0`; when it
returns the children are `k` copies of the unit for the least positive `k` with
`k * u ≥ scopeSize * 4 / 3`, and it returns the same for every bound of at least `k - 1`
iterations; when `u = 0` and `scopeSize > 0` the loop condition holds after every number
of iterations and the loop returns for no bound. -/
theorem populateElements_terminates (h : Host) (st : MarqueeComponent) (u : ℚ)
    (hu : 0 ≤ u) (hs : 0 ≤ st.scopeSize) (hw : st.wrapperSize = u)
    (hsize : ∀ k : Nat, 1 ≤ k →
      getElementsSize h.window
        (h.children (setInnerHTML (List.replicate k (innerHTML st.children)).flatten))
        st.mode st.direction = k * u) :
    ((∃ (fuel : Nat) (st' : MarqueeComponent), populateElements h fuel st = some st') ↔
      (0 < u ∨ st.scopeSize = 0)) ∧
    (∀ (fuel : Nat) (st' : MarqueeComponent), populateElements h fuel st = some st' →
      ∃ k : Nat, 1 ≤ k ∧
        innerHTML st'.children = (List.replicate k (innerHTML st.children)).flatten ∧
        (k : ℚ) * u ≥ st.scopeSize * 4 / 3 ∧
        (∀ j : Nat, 1 ≤ j → j < k → (j : ℚ) * u < st.scopeSize * 4 / 3) ∧
        ∀ fuel' : Nat, k - 1 ≤ fuel' → populateElements h fuel' st = some st') ∧
    (u = 0 → 0 < st.scopeSize →
      (∀ fuel : Nat, populateElements h fuel st = none) ∧
      ∀ j : Nat, populateCond (populateIter h (innerHTML st.children) j st)) := by
  have hcond := populateIter_cond h st u hw hsize
  have hret : ∀ (fuel : Nat) (st' : MarqueeComponent),
      populateElements h fuel st = some st' →
      ∃ k : Nat, 1 ≤ k ∧
        innerHTML st'.children = (List.replicate k (innerHTML st.children)).flatten ∧
        (k : ℚ) * u ≥ st.scopeSize * 4 / 3 ∧
        (∀ j : Nat, 1 ≤ j → j < k → (j : ℚ) * u < st.scopeSize * 4 / 3) ∧
        ∀ fuel' : Nat, k - 1 ≤ fuel' → populateElements h fuel' st = some st' := by
    intro fuel st' hr
    obtain ⟨k, -, hst, hlt, hnot⟩ := populateLoop_some h _ fuel st st' hr
    refine ⟨k + 1, Nat.le_add_left 1 k, ?_, ?_, ?_, ?_⟩
    · rw [hst, populateIter_copies]
    · exact not_lt.mp (fun hc => hnot ((hcond k).mpr hc))
    · intro j hj1 hjk
      obtain ⟨i, rfl⟩ : ∃ i, j = i + 1 := ⟨j - 1, by omega⟩
      exact (hcond i).mp (hlt i (Nat.lt_of_succ_lt_succ hjk))
    · intro fuel' hf
      rw [hst]
      exact populateLoop_of_iter h _ k st fuel' (by simpa using hf) hlt hnot
  refine ⟨⟨?_, ?_⟩, hret, ?_⟩
  · rintro ⟨fuel, st', hr⟩
    obtain ⟨k, -, -, hge, -⟩ := hret fuel st' hr
    by_cases hpos : 0 < u
    · exact Or.inl hpos
    · have hu0 : u = 0 := le_antisymm (not_lt.mp hpos) hu
      rw [hu0, mul_zero] at hge
      exact Or.inr (le_antisymm (by linarith) hs)
  · intro hor
    have hex : ∃ k : Nat, ¬ populateCond (populateIter h (innerHTML st.children) k st) := by
      rcases hor with hpos | hzero
      · obtain ⟨n, hn⟩ := exists_nat_ge (st.scopeSize * 4 / 3 / u)
        refine ⟨n, fun hc => ?_⟩
        have h1 : st.scopeSize * 4 / 3 ≤ n * u := (div_le_iff₀ hpos).mp hn
        have h2 := (hcond n).mp hc
        push_cast at h2
        nlinarith
      · refine ⟨0, fun hc => ?_⟩
        have h2 := (hcond 0).mp hc
        rw [hzero] at h2
        norm_num at h2
        linarith
    classical
    exact ⟨Nat.find hex, _,
      populateLoop_of_iter h _ (Nat.find hex) st _ (le_refl _)
        (fun j hj => not_not.mp (Nat.find_min hex hj)) (Nat.find_spec hex)⟩
  · intro hu0 hspos
    have hall : ∀ j : Nat, populateCond (populateIter h (innerHTML st.children) j st) := by
      intro j
      rw [hcond j, hu0, mul_zero]
      linarith
    exact ⟨fun fuel => populateLoop_none h _ fuel st (fun j _ => hall j), hall⟩

/-- C16 on three slides of width 100 (a unit of size 300, for which the loop returns)
and on a component of width 300 without content (a unit of size 0, for which it does
not). -/
theorem populateElements_terminates_witness :
    ((0 : ℚ) ≤ 300 ∧ 0 ≤ threeSlides.scopeSize ∧ threeSlides.wrapperSize = 300 ∧
      (∀ k : Nat, 1 ≤ k →
        getElementsSize (rowHost 300).window
          ((rowHost 300).children
            (setInnerHTML (List.replicate k (innerHTML threeSlides.children)).flatten))
          threeSlides.mode threeSlides.direction = k * 300) ∧
      ∃ (fuel : Nat) (st' : MarqueeComponent),
        populateElements (rowHost 300) fuel threeSlides = some st') ∧
    ((0 : ℚ) ≤ 0 ∧ 0 < noSlides.scopeSize ∧ noSlides.wrapperSize = 0 ∧
      (∀ k : Nat, 1 ≤ k →
        getElementsSize (rowHost 300).window
          ((rowHost 300).children
            (setInnerHTML (List.replicate k (innerHTML noSlides.children)).flatten))
          noSlides.mode noSlides.direction = k * 0) ∧
      ∀ fuel : Nat, populateElements (rowHost 300) fuel noSlides = none) :=
  have hs3 : 0 ≤ threeSlides.scopeSize := by norm_num [threeSlides]
  have hsize3 : ∀ k : Nat, 1 ≤ k →
      getElementsSize (rowHost 300).window
        ((rowHost 300).children
          (setInnerHTML (List.replicate k (innerHTML threeSlides.children)).flatten))
        threeSlides.mode threeSlides.direction = k * 300 := by
    intro k _
    rw [show threeSlides.mode = .horizontal from rfl,
      show threeSlides.direction = .ltr from rfl, getElementsSize_rowHost,
      innerHTML_setInnerHTML, sum_flatten_replicate]
    simp [threeSlides, innerHTML_setInnerHTML]
  have hs0 : 0 < noSlides.scopeSize := by norm_num [noSlides]
  have hsize0 : ∀ k : Nat, 1 ≤ k →
      getElementsSize (rowHost 300).window
        ((rowHost 300).children
          (setInnerHTML (List.replicate k (innerHTML noSlides.children)).flatten))
        noSlides.mode noSlides.direction = k * 0 := by
    intro k _
    rw [show noSlides.mode = .horizontal from rfl, show noSlides.direction = .ltr from rfl,
      getElementsSize_rowHost, innerHTML_setInnerHTML, sum_flatten_replicate]
    simp [noSlides, innerHTML]
  ⟨⟨le_of_lt (by norm_num), hs3, rfl, hsize3,
      (populateElements_terminates (rowHost 300) threeSlides 300 (by norm_num) hs3 rfl
        hsize3).1.mpr (Or.inl (by norm_num))⟩,
    ⟨le_refl _, hs0, rfl, hsize0,
      ((populateElements_terminates (rowHost 300) noSlides 0 (le_refl _) (le_of_lt hs0) rfl
        hsize0).2.2 rfl hs0).1⟩⟩

/-- C17: in HORIZONTAL-LTR or VERTICAL-LTR let the first child have near offset 0, every
child have extent at most `scopeSize / 3`, `wrapperSize ≥ scopeSize * 4 / 3` and
`moveTo = wrapperSize - scopeSize`.  In a frame in which recycling is due the first child
is classified invisible, so `inVisibleElements` is not empty; and when the children are
laid out without gaps, have non-negative extents (as `clientWidth` and `clientHeight`
always are) and measure `wrapperSize`, and the first child has positive extent, the
re-based `point` is strictly below `wrapperSize - scopeSize`. -/
theorem animate_recycle_progress (h : Host) (st : MarqueeComponent) (first : HTMLElement)
    (hdir : st.direction = .ltr)
    (hfirst : (h.children st.children).head? = some first)
    (h0 : edge h.window st.mode .ltr first = 0)
    (hmargin : st.wrapperSize ≥ st.scopeSize * 4 / 3)
    (hsmall : ∀ e ∈ h.children st.children, extent st.mode e ≤ st.scopeSize / 3)
    (hm : st.moveTo = st.wrapperSize - st.scopeSize)
    (hdue : shouldAppendElements (advance st) = true) :
    isInvisible h.window st.mode .ltr (st.point + st.speed) first = true ∧
    first ∈ (getVisibleElements h.window (h.children st.children) st.mode .ltr
      (st.point + st.speed)).inVisibleElements ∧
    (getVisibleElements h.window (h.children st.children) st.mode .ltr
      (st.point + st.speed)).inVisibleElements ≠ [] ∧
    (GapFree h.window st.mode .ltr (h.children st.children) →
      (∀ e ∈ h.children st.children, 0 ≤ extent st.mode e) →
      st.wrapperSize = getElementsSize h.window (h.children st.children) st.mode .ltr →
      0 < extent st.mode first →
      (animate h st).point < st.wrapperSize - st.scopeSize) := by
  obtain ⟨rest, hels⟩ : ∃ rest, h.children st.children = first :: rest := by
    cases hc : h.children st.children with
    | nil => rw [hc] at hfirst; simp at hfirst
    | cons a l =>
      rw [hc] at hfirst
      simp only [List.head?_cons, Option.some.injEq] at hfirst
      exact ⟨l, by rw [hfirst]⟩
  have hmem : first ∈ h.children st.children := by rw [hels]; exact List.mem_cons_self _ _
  obtain ⟨-, ap, amo, adi, -, am, -⟩ := advance_fields st
  have hnv : ¬ ((advance st).mode = .vertical ∧ (advance st).direction = .rtl) := by
    rw [adi, hdir]; simp
  have hreach : st.point + st.speed ≥ st.wrapperSize - st.scopeSize := by
    have := hdue
    rw [shouldAppendElements_of_not_vrtl _ hnv, ap, am, hm] at this
    simpa using this
  have hinv : isInvisible h.window st.mode .ltr (st.point + st.speed) first = true := by
    rw [isInvisible_ltr, h0]
    have := hsmall first hmem
    simp only [decide_eq_true_eq]
    linarith
  have hin : first ∈ (getVisibleElements h.window (h.children st.children) st.mode .ltr
      (st.point + st.speed)).inVisibleElements :=
    (mem_inVisibleElements _ _ _ _ _ _).mpr ⟨hmem, hinv⟩
  refine ⟨hinv, hin, List.ne_nil_of_mem hin, ?_⟩
  intro hgf hnn hw hpos
  obtain ⟨-, -, hsi, -, hadd⟩ :=
    partition_gapFree h.window st.mode (st.point + st.speed) (h.children st.children) hgf hnn
  have hpt := animate_point_of_due h st hdue
  rw [hdir] at hpt
  have hbig : extent st.mode first ≤
      getElementsSize h.window (getVisibleElements h.window (h.children st.children)
        st.mode .ltr (st.point + st.speed)).inVisibleElements st.mode .ltr := by
    rw [hsi, hels, List.takeWhile_cons, hinv]
    simp only [if_true, List.map_cons, List.sum_cons]
    have := sum_extent_nonneg st.mode
      (rest.takeWhile (fun el => isInvisible h.window st.mode .ltr (st.point + st.speed) el))
      (fun e he => hnn e (by
        rw [hels]
        exact List.mem_cons_of_mem _ ((List.takeWhile_sublist _).subset he)))
    linarith
  rw [hpt, hw]
  linarith

/-- C17 on `lapDone`: six slides of width 100 in a component of width 300, in the
frame that ends the first lap. -/
theorem animate_recycle_progress_witness :
    lapDone.direction = .ltr ∧
    ((rowHost 300).children lapDone.children).head? = some firstSlide ∧
    edge (rowHost 300).window lapDone.mode .ltr firstSlide = 0 ∧
    lapDone.wrapperSize ≥ lapDone.scopeSize * 4 / 3 ∧
    (∀ e ∈ (rowHost 300).children lapDone.children,
      extent lapDone.mode e ≤ lapDone.scopeSize / 3) ∧
    lapDone.moveTo = lapDone.wrapperSize - lapDone.scopeSize ∧
    shouldAppendElements (advance lapDone) = true ∧
    GapFree (rowHost 300).window lapDone.mode .ltr ((rowHost 300).children lapDone.children) ∧
    (∀ e ∈ (rowHost 300).children lapDone.children, 0 ≤ extent lapDone.mode e) ∧
    lapDone.wrapperSize =
      getElementsSize (rowHost 300).window ((rowHost 300).children lapDone.children)
        lapDone.mode .ltr ∧
    0 < extent lapDone.mode firstSlide ∧
    (getVisibleElements (rowHost 300).window ((rowHost 300).children lapDone.children)
      lapDone.mode .ltr (lapDone.point + lapDone.speed)).inVisibleElements ≠ [] ∧
    (animate (rowHost 300) lapDone).point < lapDone.wrapperSize - lapDone.scopeSize :=
  have hfirst : ((rowHost 300).children lapDone.children).head? = some firstSlide := by
    simp [lapDone, sixSlides, threeSlides, setInnerHTML, parseFrom, Host.children, measureFrom,
      rowHost, rowLayout, firstSlide]
  have h0 : edge (rowHost 300).window lapDone.mode .ltr firstSlide = 0 := by
    simp [edge, elementOffset, lapDone, sixSlides, threeSlides, firstSlide]
  have hmargin : lapDone.wrapperSize ≥ lapDone.scopeSize * 4 / 3 := by
    norm_num [lapDone, sixSlides, threeSlides]
  have hsmall : ∀ e ∈ (rowHost 300).children lapDone.children,
      extent lapDone.mode e ≤ lapDone.scopeSize / 3 := by
    simp [lapDone, sixSlides, threeSlides, setInnerHTML, parseFrom, Host.children, measureFrom,
      rowHost, rowLayout, extent]
    norm_num
  have hm : lapDone.moveTo = lapDone.wrapperSize - lapDone.scopeSize := by
    norm_num [lapDone, sixSlides, threeSlides]
  have hdue : shouldAppendElements (advance lapDone) = true := by
    simp [shouldAppendElements, advance, moveWrapper, lapDone, sixSlides, threeSlides]
    norm_num
  have hgf : GapFree (rowHost 300).window lapDone.mode .ltr
      ((rowHost 300).children lapDone.children) :=
    rowLayout_gapFree _ _ _ 0
  have hnn : ∀ e ∈ (rowHost 300).children lapDone.children, 0 ≤ extent lapDone.mode e := by
    simp [lapDone, sixSlides, threeSlides, setInnerHTML, parseFrom, Host.children, measureFrom,
      rowHost, rowLayout, extent]
  have hw : lapDone.wrapperSize =
      getElementsSize (rowHost 300).window ((rowHost 300).children lapDone.children)
        lapDone.mode .ltr := by
    rw [show lapDone.mode = .horizontal from rfl, getElementsSize_rowHost]
    simp [lapDone, sixSlides, innerHTML_setInnerHTML]
  have hpos : 0 < extent lapDone.mode firstSlide := by
    simp [extent, lapDone, sixSlides, threeSlides, firstSlide]
  ⟨rfl, hfirst, h0, hmargin, hsmall, hm, hdue, hgf, hnn, hw, hpos,
    (animate_recycle_progress (rowHost 300) lapDone firstSlide rfl hfirst h0 hmargin hsmall hm
      hdue).2.2.1,
    (animate_recycle_progress (rowHost 300) lapDone firstSlide rfl hfirst h0 hmargin hsmall hm
      hdue).2.2.2 hgf hnn hw hpos⟩

/-- C18: in HORIZONTAL-LTR or VERTICAL-LTR, on children of positive extent laid out without
gaps, at every point the invisible elements are a prefix of the child list and the
visible ones the remaining suffix, and
`getElementsSize(visible) + getElementsSize(invisible) = getElementsSize(all)` with
`getElementsSize(invisible) ≥ 0`; hence, with `moveTo = wrapperSize - scopeSize` and
`wrapperSize` the measured size of the children, a recycle re-bases `point` to
`moveTo - getElementsSize(invisible)`, which is `≤ moveTo`. -/
theorem animate_recycle_additive (h : Host) (st : MarqueeComponent)
    (hdir : st.direction = .ltr)
    (hgf : GapFree h.window st.mode .ltr (h.children st.children))
    (hpos : ∀ e ∈ h.children st.children, 0 < extent st.mode e) :
    (∀ p : ℚ, ∃ n : Nat,
      (getVisibleElements h.window (h.children st.children) st.mode .ltr
        p).inVisibleElements = (h.children st.children).take n ∧
      (getVisibleElements h.window (h.children st.children) st.mode .ltr
        p).visibleElements = (h.children st.children).drop n ∧
      getElementsSize h.window (getVisibleElements h.window (h.children st.children)
          st.mode .ltr p).visibleElements st.mode .ltr +
        getElementsSize h.window (getVisibleElements h.window (h.children st.children)
          st.mode .ltr p).inVisibleElements st.mode .ltr =
        getElementsSize h.window (h.children st.children) st.mode .ltr ∧
      0 ≤ getElementsSize h.window (getVisibleElements h.window (h.children st.children)
          st.mode .ltr p).inVisibleElements st.mode .ltr) ∧
    (shouldAppendElements (advance st) = true →
      st.moveTo = st.wrapperSize - st.scopeSize →
      st.wrapperSize = getElementsSize h.window (h.children st.children) st.mode .ltr →
      (animate h st).point =
        st.moveTo -
          getElementsSize h.window (getVisibleElements h.window (h.children st.children)
            st.mode .ltr (st.point + st.speed)).inVisibleElements st.mode .ltr ∧
      (animate h st).point ≤ st.moveTo) := by
  have hnn : ∀ e ∈ h.children st.children, 0 ≤ extent st.mode e :=
    fun e he => le_of_lt (hpos e he)
  have hpart : ∀ p : ℚ,
      getElementsSize h.window (getVisibleElements h.window (h.children st.children)
          st.mode .ltr p).visibleElements st.mode .ltr +
        getElementsSize h.window (getVisibleElements h.window (h.children st.children)
          st.mode .ltr p).inVisibleElements st.mode .ltr =
        getElementsSize h.window (h.children st.children) st.mode .ltr ∧
      0 ≤ getElementsSize h.window (getVisibleElements h.window (h.children st.children)
          st.mode .ltr p).inVisibleElements st.mode .ltr := by
    intro p
    obtain ⟨-, -, hsi, -, hadd⟩ :=
      partition_gapFree h.window st.mode p (h.children st.children) hgf hnn
    refine ⟨hadd, ?_⟩
    rw [hsi]
    exact sum_extent_nonneg st.mode _
      (fun e he => hnn e ((List.takeWhile_sublist _).subset he))
  constructor
  · intro p
    obtain ⟨hinv, hvis, -⟩ :=
      partition_gapFree h.window st.mode p (h.children st.children) hgf hnn
    obtain ⟨ht, hd⟩ := takeWhile_eq_take_length
      (fun el => isInvisible h.window st.mode .ltr p el) (h.children st.children)
    exact ⟨_, hinv.trans ht, hvis.trans hd, (hpart p).1, (hpart p).2⟩
  · intro hdue hm hw
    have hpt := animate_point_of_due h st hdue
    rw [hdir] at hpt
    obtain ⟨hadd, hge⟩ := hpart (st.point + st.speed)
    constructor
    · rw [hpt, hm, hw]; linarith
    · rw [hpt, hm, hw]; linarith

/-- C18 on `lapDone`: six slides of width 100 in a component of width 300, in the
frame that ends the first lap. -/
theorem animate_recycle_additive_witness :
    lapDone.direction = .ltr ∧
    GapFree (rowHost 300).window lapDone.mode .ltr ((rowHost 300).children lapDone.children) ∧
    (∀ e ∈ (rowHost 300).children lapDone.children, 0 < extent lapDone.mode e) ∧
    shouldAppendElements (advance lapDone) = true ∧
    lapDone.moveTo = lapDone.wrapperSize - lapDone.scopeSize ∧
    lapDone.wrapperSize =
      getElementsSize (rowHost 300).window ((rowHost 300).children lapDone.children)
        lapDone.mode .ltr ∧
    (animate (rowHost 300) lapDone).point ≤ lapDone.moveTo :=
  have hgf : GapFree (rowHost 300).window lapDone.mode .ltr
      ((rowHost 300).children lapDone.children) :=
    rowLayout_gapFree _ _ _ 0
  have hpos : ∀ e ∈ (rowHost 300).children lapDone.children, 0 < extent lapDone.mode e := by
    simp [lapDone, sixSlides, threeSlides, setInnerHTML, parseFrom, Host.children, measureFrom,
      rowHost, rowLayout, extent]
  have hdue : shouldAppendElements (advance lapDone) = true := by
    simp [shouldAppendElements, advance, moveWrapper, lapDone, sixSlides, threeSlides]
    norm_num
  have hm : lapDone.moveTo = lapDone.wrapperSize - lapDone.scopeSize := by
    norm_num [lapDone, sixSlides, threeSlides]
  have hw : lapDone.wrapperSize =
      getElementsSize (rowHost 300).window ((rowHost 300).children lapDone.children)
        lapDone.mode .ltr := by
    rw [show lapDone.mode = .horizontal from rfl, getElementsSize_rowHost]
    simp [lapDone, sixSlides, innerHTML_setInnerHTML]
  ⟨rfl, hgf, hpos, hdue, hm, hw,
    ((animate_recycle_additive (rowHost 300) lapDone rfl hgf hpos).2 hdue hm hw).2⟩

end Marquee
